import Mathlib

/-!
# Verification of the Schola id-flattening and adapter core

A shallow embedding, in Lean, of the Python-side core of the Schola plugin
(`Plugins/Schola/Schola-2.0.1/Resources/python`):

* `schola/core/utils/id_manager.py` (the `build/lib` copy, which is the one
  present in the tree): the `IdManager` mapping between nested
  `(env_id, agent_id)` pairs and flat indices, together with its
  flatten/nest helpers;
* the framework adapters built on top of it:
  `schola/sb3/env.py` (`VecEnv`), `build/lib/schola/gym/env.py`
  (`GymEnv`, `GymVectorEnv`), `schola/rllib/env.py`
  (`RayEnv`, `_SingleEnvWrapper`, `RayVecEnv`) and
  `schola/minari/datacollector.py` (`ScholaDataCollector`).

Python dictionaries are modelled as association lists with
last-write-wins insertion (`pyDictInsert`) and first-match lookup
(`dictGet?`); by construction the embedded dict builders never produce
duplicate keys, so the two disciplines agree.  Python exceptions are
modelled with the `Except PyErr` monad.  External collaborators (the gRPC
protocol, numpy, gymnasium helpers) enter only through their values: the
adapters' step/reset bodies are modelled as pure functions of the nested
structures the protocol returns.

The file is organised as: all definitions first, then all theorems.
-/

namespace Schola

/-- The Python exception kinds raised by the embedded code. -/
inductive PyErr where
  | indexError
  | keyError
  | attributeError
  | assertionError
  | notImplementedError
  | unboundLocalError
  | environmentException (env_id : Nat)
  | noEnvironments
  | noAgents (env_id : Nat)
  | externalError
deriving DecidableEq, Repr

/-- Decidable equality for `Except` results (used to evaluate the embedded
code on concrete inputs). -/
def exceptDecEq {ε α : Type} [DecidableEq ε] [DecidableEq α] :
    (a b : Except ε α) → Decidable (a = b)
  | .error e1, .error e2 =>
      if h : e1 = e2 then .isTrue (by rw [h])
      else .isFalse (by intro hc; injection hc with h2; exact h h2)
  | .error _, .ok _ => .isFalse (fun hc => Except.noConfusion hc)
  | .ok _, .error _ => .isFalse (fun hc => Except.noConfusion hc)
  | .ok a1, .ok a2 =>
      if h : a1 = a2 then .isTrue (by rw [h])
      else .isFalse (by intro hc; injection hc with h2; exact h h2)

instance {ε α : Type} [DecidableEq ε] [DecidableEq α] :
    DecidableEq (Except ε α) := exceptDecEq

/-- Evaluate an optional lookup, raising the given Python exception kind when
the value is absent. -/
def orRaise {α : Type} (o : Option α) (e : PyErr) : Except PyErr α :=
  match o with
  | none => .error e
  | some a => .ok a

/-- Python `dict.__setitem__` on an association list: an existing key has its
value updated in place, a new key is appended at the end (Python dicts keep
insertion order). -/
def pyDictInsert {κ α : Type} [DecidableEq κ] :
    List (κ × α) → κ → α → List (κ × α)
  | [], k, v => [(k, v)]
  | (k', v') :: rest, k, v =>
      if k' = k then (k, v) :: rest else (k', v') :: pyDictInsert rest k v

/-- Python `dict.__getitem__` (first matching key; the embedded dict builders
never produce duplicate keys). -/
def dictGet? {κ α : Type} [DecidableEq κ] : List (κ × α) → κ → Option α
  | [], _ => none
  | (k', v) :: rest, k => if k' = k then some v else dictGet? rest k

/-- The keys of a Python dict, in insertion order. -/
def dictKeys {κ α : Type} (d : List (κ × α)) : List κ := d.map Prod.fst

/-- Python `list.__setitem__`, which raises `IndexError` past the end
(negative indices do not arise in the embedded code). -/
def pyListSet {α : Type} (l : List α) (i : Nat) (v : α) :
    Except PyErr (List α) :=
  if i < l.length then .ok (l.set i v) else .error .indexError

/-! ## `IdManager` (`schola/core/utils/id_manager.py`)

The manager is a pure function of its `ids : List (List String)` field, so we
embed each cached property as a function of `ids`. -/

/-- Inner loop of `IdManager.id_map`: insert each agent of one environment
into that environment's dict, threading the global `uid` counter. -/
def buildEnvMap : List String → Nat → List (String × Nat) → List (String × Nat)
  | [], _, d => d
  | a :: rest, uid, d => buildEnvMap rest (uid + 1) (pyDictInsert d a uid)

/-- `IdManager.id_map`: one dict per environment, mapping agent id to flat id;
the flat id counter runs over environments in order. -/
def buildIdMap : List (List String) → Nat → List (List (String × Nat))
  | [], _ => []
  | env :: rest, uid => buildEnvMap env uid [] :: buildIdMap rest (uid + env.length)

/-- `IdManager.id_map` (the cached property, counter starting at 0). -/
def id_map (ids : List (List String)) : List (List (String × Nat)) :=
  buildIdMap ids 0

/-- `IdManager.id_list` with an explicit first environment index, mirroring
the `enumerate(self.ids)` loop. -/
def idListAux : List (List String) → Nat → List (Nat × String)
  | [], _ => []
  | env :: rest, e => env.map (fun a => (e, a)) ++ idListAux rest (e + 1)

/-- `IdManager.id_list`: the nested pairs in flat order. -/
def id_list (ids : List (List String)) : List (Nat × String) :=
  idListAux ids 0

/-- `IdManager.num_ids = sum(map(len, self.ids))`. -/
def num_ids (ids : List (List String)) : Nat :=
  (ids.map List.length).sum

/-- `IdManager.num_envs = len(self.ids)`. -/
def num_envs (ids : List (List String)) : Nat := ids.length

/-- `IdManager.__getitem__` with a `(env_id, agent_id)` key
(`self.id_map[key[0]][key[1]]`): a list `IndexError` or dict `KeyError` is
possible for pairs outside the definition. -/
def get_flattened_id (ids : List (List String)) (e : Nat) (a : String) :
    Except PyErr Nat := do
  let d ← orRaise ((id_map ids).get? e) .indexError
  orRaise (dictGet? d a) .keyError

/-- `IdManager.__getitem__` with a flat key (`self.id_list[key]`). -/
def get_nested_id (ids : List (List String)) (uid : Nat) :
    Except PyErr (Nat × String) :=
  orRaise ((id_list ids).get? uid) .indexError

/-- One write of the flatten loops:
`output_list[self.id_map[first_id][second_id]] = value`. -/
def flattenWrite {α : Type} (ids : List (List String)) (out : List α)
    (e : Nat) (a : String) (v : α) : Except PyErr (List α) := do
  let uid ← get_flattened_id ids e a
  pyListSet out uid v

/-- Inner loop shared by both flatten helpers:
`for second_id, value in nested_ids.items(): output_list[...] = value`. -/
def flattenEnvWrites {α : Type} (ids : List (List String)) (e : Nat) :
    List (String × α) → List α → Except PyErr (List α)
  | [], out => .ok out
  | (a, v) :: rest, out => do
      let out' ← flattenWrite ids out e a v
      flattenEnvWrites ids e rest out'

/-- Outer loop of `IdManager.flatten_list_of_dicts`
(`for first_id, nested_ids in enumerate(nested_id_list)`). -/
def flattenListLoop {α : Type} (ids : List (List String)) :
    Nat → List (List (String × α)) → List α → Except PyErr (List α)
  | _, [], out => .ok out
  | e, d :: rest, out => do
      let out' ← flattenEnvWrites ids e d out
      flattenListLoop ids (e + 1) rest out'

/-- `IdManager.flatten_list_of_dicts` (Python default `None` corresponds to
instantiating `α` with an `Option` type and `default := none`). -/
def flatten_list_of_dicts {α : Type} (ids : List (List String))
    (nested : List (List (String × α))) (default : α) : Except PyErr (List α) :=
  flattenListLoop ids 0 nested (List.replicate (num_ids ids) default)

/-- Outer loop of `IdManager.flatten_dict_of_dicts`
(`for first_id, nested_ids in nested_id_dict.items()`). -/
def flattenDictLoop {α : Type} (ids : List (List String)) :
    List (Nat × List (String × α)) → List α → Except PyErr (List α)
  | [], out => .ok out
  | (e, d) :: rest, out => do
      let out' ← flattenEnvWrites ids e d out
      flattenDictLoop ids rest out'

/-- `IdManager.flatten_dict_of_dicts`. -/
def flatten_dict_of_dicts {α : Type} (ids : List (List String))
    (nested : List (Nat × List (String × α))) (default : α) :
    Except PyErr (List α) :=
  flattenDictLoop ids nested (List.replicate (num_ids ids) default)

/-- Running the body of `IdManager.flatten_list_of_dicts` when the argument
is a *dict* rather than a list — which is exactly what the spec's round-trip
law `flatten_list_of_dicts(nest_list_to_dict_of_dicts(x))` does, since
`nest_list_to_dict_of_dicts` returns `Dict[int, Dict[str, T]]`.  Python's
`enumerate` over a dict iterates its *keys*, so `nested_ids` is bound to an
`int` key and the body's `nested_ids.items()` raises `AttributeError`
(`'int' object has no attribute 'items'`) as soon as the dict is non-empty.
An empty dict runs zero iterations and returns the all-default list. -/
def flatten_list_of_dicts_on_dict {α : Type} (ids : List (List String))
    (m : List (Nat × List (String × α))) (default : α) :
    Except PyErr (List α) :=
  match m with
  | [] => .ok (List.replicate (num_ids ids) default)
  | _ :: _ => .error .attributeError

/-- The dict comprehension
`{second_id: default for second_id in nested_ids}`, built left to right. -/
def dictOfKeysAux {α : Type} : List String → α → List (String × α) →
    List (String × α)
  | [], _, d => d
  | a :: rest, v, d => dictOfKeysAux rest v (pyDictInsert d a v)

/-- The per-environment default dict built by `nest_list_to_dict_of_dicts`. -/
def dictOfKeys {α : Type} (keys : List String) (v : α) : List (String × α) :=
  dictOfKeysAux keys v []

/-- The outer dict comprehension of `nest_list_to_dict_of_dicts`:
`{first_id: {...} for first_id, nested_ids in enumerate(self.ids)}`. -/
def nestInitAux {α : Type} : List (List String) → α → Nat →
    List (Nat × List (String × α))
  | [], _, _ => []
  | env :: rest, v, e => (e, dictOfKeys env v) :: nestInitAux rest v (e + 1)

/-- `output_dict[first_id][second_id] = body`: a store into a dict of dicts
(`KeyError` when the outer key is absent). -/
def nestStore {α : Type} (m : List (Nat × List (String × α))) (e : Nat)
    (a : String) (v : α) : Except PyErr (List (Nat × List (String × α))) := do
  let d ← orRaise (dictGet? m e) .keyError
  pure (pyDictInsert m e (pyDictInsert d a v))

/-- The write loop of `nest_list_to_dict_of_dicts`:
`for flat_id, body in enumerate(id_list): first, second = self[flat_id]; ...`. -/
def nestWrites {α : Type} (ids : List (List String)) :
    Nat → List α → List (Nat × List (String × α)) →
    Except PyErr (List (Nat × List (String × α)))
  | _, [], m => .ok m
  | flatId, v :: rest, m => do
      let p ← get_nested_id ids flatId
      let m' ← nestStore m p.1 p.2 v
      nestWrites ids (flatId + 1) rest m'

/-- `IdManager.nest_list_to_dict_of_dicts`. -/
def nest_list_to_dict_of_dicts {α : Type} (ids : List (List String))
    (xs : List α) (default : α) :
    Except PyErr (List (Nat × List (String × α))) :=
  nestWrites ids 0 xs (nestInitAux ids default 0)

/-- `IdManager.partial_get`: `self.ids[first_id]` (list `IndexError` past the
end). -/
def envAgents (ids : List (List String)) (e : Nat) :
    Except PyErr (List String) :=
  orRaise (ids.get? e) .indexError

/-! ### Derived quantities used only in statements and proofs -/

/-- Number of flat slots taken by the environments before index `e`. -/
def envOffset (ids : List (List String)) (e : Nat) : Nat :=
  ((ids.take e).map List.length).sum

/-- The literal association list produced by a successful
`nest_list_to_dict_of_dicts ids xs`: one entry per environment, whose dict
pairs that environment's agents with the corresponding block of `xs`. -/
def canonNest {α : Type} : List (List String) → List α → Nat →
    List (Nat × List (String × α))
  | [], _, _ => []
  | env :: rest, xs, e =>
      (e, env.zip (xs.take env.length)) ::
        canonNest rest (xs.drop env.length) (e + 1)

/-! ## RLlib dynamic-population adapters (`schola/rllib/env.py`)

`RayEnv` (single environment) and `RayVecEnv`'s per-environment
`_SingleEnvWrapper` track per-episode liveness with Python sets, modelled
here as `Finset String`.  The per-agent dicts returned by the transport are
association lists. -/

/-- `set(d.keys())` of a Python dict. -/
def keysFinset {α : Type} (d : List (String × α)) : Finset String :=
  (d.map Prod.fst).toFinset

/-- `set(filter(lambda x: d[x], d.keys()))`: the keys whose value is truthy. -/
def trueKeys (d : List (String × Bool)) : Finset String :=
  (keysFinset d).filter (fun a => dictGet? d a = some true)

/-- Liveness state of one `_SingleEnvWrapper` (`RayVecEnv`), including the
`_reset_on_next_step` flag. -/
structure WrapperState where
  current : Finset String
  terminated : Finset String
  truncated : Finset String
  resetOnNextStep : Bool
deriving DecidableEq

/-- `_SingleEnvWrapper._reset`: `current = observations.keys()`, both done
sets emptied, reset flag cleared. -/
def wrapperResetState {O : Type} (observations : List (String × O)) :
    WrapperState :=
  { current := keysFinset observations
    terminated := ∅
    truncated := ∅
    resetOnNextStep := false }

/-- `_SingleEnvWrapper._step`: an environment flagged for auto-reset is reset
from the incoming observations; otherwise the done sets grow by the agents
flagged true and the active set becomes
`(current ∪ observed) - (terminated ∪ truncated)`. -/
def wrapperStep {O : Type} (s : WrapperState)
    (observations : List (String × O))
    (terminateds truncateds : List (String × Bool)) : WrapperState :=
  if s.resetOnNextStep then
    wrapperResetState observations
  else
    let newTerm := s.terminated ∪ trueKeys terminateds
    let newTrunc := s.truncated ∪ trueKeys truncateds
    { current := (s.current ∪ keysFinset observations) \ (newTerm ∪ newTrunc)
      terminated := newTerm
      truncated := newTrunc
      resetOnNextStep := s.resetOnNextStep }

/-- The per-environment tail of `RayVecEnv.step`: run the wrapper update,
compute the `__all__` aggregates from the updated liveness sets, store them
under the `"__all__"` key of the returned dicts, and mark the environment
for auto-reset when either aggregate holds. -/
def rayVecEnvStepPerEnv {O : Type} (s : WrapperState)
    (observations : List (String × O))
    (terminateds truncateds : List (String × Bool)) :
    WrapperState × List (String × Bool) × List (String × Bool) :=
  let s' := wrapperStep s observations terminateds truncateds
  let numTotal := (s'.current ∪ s'.terminated ∪ s'.truncated).card
  let numDone := (s'.terminated ∪ s'.truncated).card
  let termAll : Bool := if 0 < numTotal then numDone == numTotal else false
  let truncAll : Bool :=
    if 0 < numTotal then s'.truncated.card == numTotal else false
  let s'' := if termAll || truncAll then
      { s' with resetOnNextStep := true } else s'
  (s'', pyDictInsert terminateds "__all__" termAll,
    pyDictInsert truncateds "__all__" truncAll)

/-- Liveness state of `RayEnv` (no auto-reset flag: `RayEnv` never
self-resets). -/
structure RayEnvState where
  current : Finset String
  terminated : Finset String
  truncated : Finset String
deriving DecidableEq

/-- The agent-tracking part of `RayEnv.reset`. -/
def rayEnvReset {O : Type} (observations : List (String × O)) :
    RayEnvState :=
  { current := keysFinset observations, terminated := ∅, truncated := ∅ }

/-- The agent-tracking and `__all__` part of `RayEnv.step`: the done sets
grow by the agents flagged true among the agents appearing in this step's
`terminateds`/`truncateds` dicts, while `current` is *recomputed* from this
step's dicts alone (`self._current_agents = current_active_agents`, no union
with the previous active set); the aggregates are then computed from the
updated sets and stored under `"__all__"`. -/
def rayEnvStep (s : RayEnvState)
    (terminateds truncateds : List (String × Bool)) :
    RayEnvState × List (String × Bool) × List (String × Bool) :=
  let allStep := keysFinset terminateds ∪ keysFinset truncateds
  let newTerm := s.terminated ∪
    allStep.filter (fun a => dictGet? terminateds a = some true)
  let newTrunc := s.truncated ∪
    allStep.filter (fun a => dictGet? truncateds a = some true)
  let newCurrent := allStep.filter (fun a =>
    ¬(dictGet? terminateds a = some true ∨ dictGet? truncateds a = some true))
  let s' : RayEnvState :=
    { current := newCurrent, terminated := newTerm, truncated := newTrunc }
  let numTotal := (s'.current ∪ s'.terminated ∪ s'.truncated).card
  let numDone := (s'.terminated ∪ s'.truncated).card
  let termAll : Bool := if 0 < numTotal then numDone == numTotal else false
  let truncAll : Bool :=
    if 0 < numTotal then s'.truncated.card == numTotal else false
  (s', pyDictInsert terminateds "__all__" termAll,
    pyDictInsert truncateds "__all__" truncAll)

/-- One step's worth of transport data for an episode trace. -/
structure StepData (O : Type) where
  obs : List (String × O)
  term : List (String × Bool)
  trunc : List (String × Bool)

/-- Spec-side definition (for comparison against the code): the set of
agents *seen over an episode* — every agent appearing in the reset
observations or in any step's observation/terminated/truncated dicts. -/
def seenAgents {O : Type} (resetObs : List (String × O))
    (steps : List (StepData O)) : Finset String :=
  steps.foldl
    (fun acc sd => acc ∪ keysFinset sd.obs ∪ keysFinset sd.term ∪
      keysFinset sd.trunc)
    (keysFinset resetObs)

/-! ## SB3 `VecEnv.step_wait` (`schola/sb3/env.py`) and
`GymVectorEnv.step` (`build/lib/schola/gym/env.py`)

The transport's step response consists of per-environment *lists* of dicts
(`observations`, `rewards`, `terminateds`, `truncateds`, `infos`) plus the
`Dict[int, Dict[str, _]]` side-channel `initial_obs` / `initial_infos`,
populated only for environments that self-reset this call (see
`deserialize.py`).  `np.asarray`/`_stack_obs` are external numpy/SB3
helpers; we return the flat Python lists they would be handed. -/

/-- The Python `infos[uid]` entry of `step_wait`: the per-agent info dict,
possibly extended in place with the two extra keys the self-reset handling
writes.  `base = none` models the initial `{}` placeholder. -/
structure Sb3Info (T I : Type) where
  base : Option I
  terminal_observation : Option T
  timelimit_truncated : Option Bool
deriving DecidableEq

/-- `flatten_list_of_dicts` called with its default `default=None`: the
output list holds `None` (`none`) or the dict values (`some _`). -/
def flattenOpt {X : Type} (ids : List (List String))
    (nested : List (List (String × X))) : Except PyErr (List (Option X)) :=
  flatten_list_of_dicts ids
    (nested.map (fun d => d.map (fun p => (p.1, some p.2)))) none

/-- Inner loop of the `infos` build:
`for agent_id in single_env_info: infos[uid] = single_env_info[agent_id]`. -/
def sb3InfosLoopEnv {T I : Type} (ids : List (List String)) (e : Nat) :
    List (String × I) → List (Sb3Info T I) → Except PyErr (List (Sb3Info T I))
  | [], infos => .ok infos
  | (a, info) :: rest, infos => do
      let uid ← get_flattened_id ids e a
      let infos' ← pyListSet infos uid ⟨some info, none, none⟩
      sb3InfosLoopEnv ids e rest infos'

/-- Outer loop of the `infos` build
(`for env_id, single_env_info in enumerate(nested_infos)`). -/
def sb3InfosLoop {T I : Type} (ids : List (List String)) :
    Nat → List (List (String × I)) → List (Sb3Info T I) →
    Except PyErr (List (Sb3Info T I))
  | _, [], infos => .ok infos
  | e, d :: rest, infos => do
      let infos' ← sb3InfosLoopEnv (T := T) ids e d infos
      sb3InfosLoop ids (e + 1) rest infos'

/-- `infos = [{} for _ in range(self.num_envs)]` (`num_envs = num_ids` for
the SB3 adapter) followed by the per-agent replacement loop. -/
def sb3BuildInfos {T I : Type} (ids : List (List String))
    (nested_infos : List (List (String × I))) :
    Except PyErr (List (Sb3Info T I)) :=
  sb3InfosLoop ids 0 nested_infos
    (List.replicate (num_ids ids) ⟨none, none, none⟩)

/-- The per-agent done flag of `step_wait`:
`terminateds[env_id].get(agent_id, False) or truncateds[env_id].get(agent_id, False)`. -/
def doneFlagB (term trunc : List (String × Bool)) (a : String) : Bool :=
  (dictGet? term a).getD false || (dictGet? trunc a).getD false

/-- Inner agents loop of the dones computation, threading `any_done` /
`all_done`. -/
def sb3DonesEnv (ids : List (List String)) (e : Nat)
    (term trunc : List (String × Bool)) :
    List String → List Bool → Bool → Bool →
    Except PyErr (List Bool × Bool × Bool)
  | [], dones, anyDone, allDone => .ok (dones, anyDone, allDone)
  | a :: rest, dones, anyDone, allDone => do
      let uid ← get_flattened_id ids e a
      let v := doneFlagB term trunc a
      let dones' ← pyListSet dones uid v
      sb3DonesEnv ids e term trunc rest dones' (anyDone || v) (allDone && v)

/-- Outer environments loop of the dones computation: after each
environment's agents, a mixed completion state
(`any_done and not all_done`) raises `EnvironmentException`. -/
def sb3DonesLoop (ids : List (List String))
    (terminateds truncateds : List (List (String × Bool))) :
    Nat → List (List String) → List Bool → Except PyErr (List Bool)
  | _, [], dones => .ok dones
  | e, agents :: rest, dones => do
      let term ← orRaise (terminateds.get? e) .indexError
      let trunc ← orRaise (truncateds.get? e) .indexError
      let r ← sb3DonesEnv ids e term trunc agents dones false true
      if r.2.1 && !r.2.2 then .error (.environmentException e)
      else sb3DonesLoop ids terminateds truncateds (e + 1) rest r.1

/-- `array_dones` of `step_wait`.  `np.empty` allocates arbitrary initial
content and every slot is written by the loop; `false` stands in for the
arbitrary initial values. -/
def sb3ComputeDones (ids : List (List String))
    (terminateds truncateds : List (List (String × Bool))) :
    Except PyErr (List Bool) :=
  sb3DonesLoop ids terminateds truncateds 0 ids
    (List.replicate (num_ids ids) false)

/-- Inner loop of the `reset_infos` update
(`for agent_id in initial_infos[env_id]`). -/
def sb3ResetInfosEnv {I : Type} (ids : List (List String)) (e : Nat) :
    List (String × I) → List I → Except PyErr (List I)
  | [], ri => .ok ri
  | (a, v) :: rest, ri => do
      let uid ← get_flattened_id ids e a
      let ri' ← pyListSet ri uid v
      sb3ResetInfosEnv ids e rest ri'

/-- Outer loop of the `reset_infos` update (`for env_id in initial_infos`). -/
def sb3ResetInfosLoop {I : Type} (ids : List (List String)) :
    List (Nat × List (String × I)) → List I → Except PyErr (List I)
  | [], ri => .ok ri
  | (e, d) :: rest, ri => do
      let ri' ← sb3ResetInfosEnv ids e d ri
      sb3ResetInfosLoop ids rest ri'

/-- Inner agents loop of the self-reset handling: for every agent of the
environment (`partial_get`), stash the terminal observation and the
`TimeLimit.truncated` flag into `infos[uid]` and substitute the post-reset
initial observation into `array_observations[uid]`. -/
def sb3InitialEnv {T I : Type} (ids : List (List String)) (e : Nat)
    (observations : List (List (String × T)))
    (terminateds truncateds : List (List (String × Bool)))
    (initEnv : List (String × T)) :
    List String → List (Sb3Info T I) → List (Option T) →
    Except PyErr (List (Sb3Info T I) × List (Option T))
  | [], infos, arrObs => .ok (infos, arrObs)
  | a :: rest, infos, arrObs => do
      let uid ← get_flattened_id ids e a
      let obsEnv ← orRaise (observations.get? e) .indexError
      let termObs ← orRaise (dictGet? obsEnv a) .keyError
      let truncEnv ← orRaise (truncateds.get? e) .indexError
      let uv ← orRaise (dictGet? truncEnv a) .keyError
      let termEnv ← orRaise (terminateds.get? e) .indexError
      let tv ← orRaise (dictGet? termEnv a) .keyError
      let old ← orRaise (infos.get? uid) .indexError
      let infos' ← pyListSet infos uid ⟨old.base, some termObs, some (uv && !tv)⟩
      let iv ← orRaise (dictGet? initEnv a) .keyError
      let arrObs' ← pyListSet arrObs uid (some iv)
      sb3InitialEnv ids e observations terminateds truncateds initEnv rest
        infos' arrObs'

/-- Outer loop of the self-reset handling (`for env_id in initial_obs`). -/
def sb3InitialLoop {T I : Type} (ids : List (List String))
    (observations : List (List (String × T)))
    (terminateds truncateds : List (List (String × Bool))) :
    List (Nat × List (String × T)) → List (Sb3Info T I) → List (Option T) →
    Except PyErr (List (Sb3Info T I) × List (Option T))
  | [], infos, arrObs => .ok (infos, arrObs)
  | (e, initEnv) :: rest, infos, arrObs => do
      let agents ← envAgents ids e
      let r ← sb3InitialEnv ids e observations terminateds truncateds
        initEnv agents infos arrObs
      sb3InitialLoop ids observations terminateds truncateds rest r.1 r.2

/-- The tuple returned by `step_wait` (before `_stack_obs`/`np.asarray`
packaging), together with the updated `reset_infos` state. -/
structure Sb3StepResult (T R I : Type) where
  observations : List (Option T)
  rewards : List (Option R)
  dones : List Bool
  infos : List (Sb3Info T I)
  reset_infos : List I
deriving DecidableEq

/-- `VecEnv.step_wait` from the transport response onward. -/
def sb3StepWait {T R I : Type} (ids : List (List String))
    (resetInfos : List I)
    (observations : List (List (String × T)))
    (rewards : List (List (String × R)))
    (terminateds truncateds : List (List (String × Bool)))
    (nested_infos : List (List (String × I)))
    (initial_obs : List (Nat × List (String × T)))
    (initial_infos : List (Nat × List (String × I))) :
    Except PyErr (Sb3StepResult T R I) := do
  let array_rewards ← flattenOpt ids rewards
  let array_observations ← flattenOpt ids observations
  let infos ← sb3BuildInfos (T := T) ids nested_infos
  let array_dones ← sb3ComputeDones ids terminateds truncateds
  let resetInfos' ← sb3ResetInfosLoop ids initial_infos resetInfos
  let r ← sb3InitialLoop ids observations terminateds truncateds initial_obs
    infos array_observations
  pure ⟨r.2, array_rewards, array_dones, r.1, resetInfos'⟩

/-- Statement-side well-formedness of one `initial_obs` entry: its
environment exists and the step dicts cover every agent of that
environment (what a conforming transport sends for a resetting
environment). -/
def initialEntryWF {T : Type} (ids : List (List String))
    (observations : List (List (String × T)))
    (terminateds truncateds : List (List (String × Bool)))
    (p : Nat × List (String × T)) : Prop :=
  ∃ (he : p.1 < ids.length) (obsEnv : List (String × T))
    (termEnv truncEnv : List (String × Bool)),
    observations.get? p.1 = some obsEnv ∧
    terminateds.get? p.1 = some termEnv ∧
    truncateds.get? p.1 = some truncEnv ∧
    ∀ a ∈ ids.get ⟨p.1, he⟩,
      (dictGet? obsEnv a).isSome ∧ (dictGet? termEnv a).isSome ∧
      (dictGet? truncEnv a).isSome ∧ (dictGet? p.2 a).isSome

/-- The payload of one gymnasium `_add_info` call made by
`GymVectorEnv.step` (an external helper: we record the per-`uid` payloads
in call order): either a plain per-agent info, or the self-reset payload
`{"final_info": ..., "final_obs": ..., **initial_infos[env][agent]}`. -/
inductive GymStepInfo (T I : Type) where
  | plain (info : I)
  | withFinal (final_info : I) (final_obs : T) (initial_info : I)
deriving DecidableEq

/-- Inner agents loop of `GymVectorEnv.step`'s mixed-completion check
(direct dict indexing, unlike the SB3 adapter's `.get` with default). -/
def gymMixedCheckEnv (ids : List (List String)) (e : Nat)
    (term trunc : List (String × Bool)) :
    List String → Bool → Bool → Except PyErr (Bool × Bool)
  | [], anyDone, allDone => .ok (anyDone, allDone)
  | a :: rest, anyDone, allDone => do
      let _ ← get_flattened_id ids e a
      let tv ← orRaise (dictGet? term a) .keyError
      let uv ← orRaise (dictGet? trunc a) .keyError
      let v := tv || uv
      gymMixedCheckEnv ids e term trunc rest (anyDone || v) (allDone && v)

/-- Outer environments loop of `GymVectorEnv.step`'s mixed-completion
check. -/
def gymMixedCheckLoop (ids : List (List String))
    (terminateds truncateds : List (List (String × Bool))) :
    Nat → List (List String) → Except PyErr Unit
  | _, [] => .ok ()
  | e, agents :: rest => do
      let term ← orRaise (terminateds.get? e) .indexError
      let trunc ← orRaise (truncateds.get? e) .indexError
      let r ← gymMixedCheckEnv ids e term trunc agents false true
      if r.1 && !r.2 then .error (.environmentException e)
      else gymMixedCheckLoop ids terminateds truncateds (e + 1) rest

/-- Inner agents loop of `GymVectorEnv.step`'s info-building and same-step
observation substitution. -/
def gymInfoEnv {T I : Type} (ids : List (List String)) (e : Nat)
    (nested_infos : List (List (String × I)))
    (initial_obs : List (Nat × List (String × T)))
    (initial_infos : List (Nat × List (String × I))) :
    List String → List (List (String × T)) → List (Nat × GymStepInfo T I) →
    Except PyErr (List (List (String × T)) × List (Nat × GymStepInfo T I))
  | [], obsAcc, infoAcc => .ok (obsAcc, infoAcc)
  | a :: rest, obsAcc, infoAcc => do
      let uid ← get_flattened_id ids e a
      match dictGet? initial_obs e with
      | some initEnv => do
          let infoEnv ← orRaise (nested_infos.get? e) .indexError
          let fi ← orRaise (dictGet? infoEnv a) .keyError
          let obsEnv ← orRaise (obsAcc.get? e) .indexError
          let fo ← orRaise (dictGet? obsEnv a) .keyError
          let iiEnv ← orRaise (dictGet? initial_infos e) .keyError
          let ii ← orRaise (dictGet? iiEnv a) .keyError
          let iv ← orRaise (dictGet? initEnv a) .keyError
          let obsAcc' ← pyListSet obsAcc e (pyDictInsert obsEnv a iv)
          gymInfoEnv ids e nested_infos initial_obs initial_infos rest
            obsAcc' (infoAcc ++ [(uid, .withFinal fi fo ii)])
      | none => do
          let infoEnv ← orRaise (nested_infos.get? e) .indexError
          let fi ← orRaise (dictGet? infoEnv a) .keyError
          gymInfoEnv ids e nested_infos initial_obs initial_infos rest
            obsAcc (infoAcc ++ [(uid, .plain fi)])

/-- Outer environments loop of `GymVectorEnv.step`'s info-building and
observation substitution. -/
def gymInfoLoop {T I : Type} (ids : List (List String))
    (nested_infos : List (List (String × I)))
    (initial_obs : List (Nat × List (String × T)))
    (initial_infos : List (Nat × List (String × I))) :
    Nat → List (List String) → List (List (String × T)) →
    List (Nat × GymStepInfo T I) →
    Except PyErr (List (List (String × T)) × List (Nat × GymStepInfo T I))
  | _, [], obsAcc, infoAcc => .ok (obsAcc, infoAcc)
  | e, agents :: rest, obsAcc, infoAcc => do
      let r ← gymInfoEnv ids e nested_infos initial_obs initial_infos agents
        obsAcc infoAcc
      gymInfoLoop ids nested_infos initial_obs initial_infos (e + 1) rest
        r.1 r.2

/-- `GymVectorEnv.step` from the transport response onward (the action
unbatching before the transport call is not modelled; `create_empty_array`
and `concatenate` are external gymnasium helpers handed the flat list we
return). -/
def gymVectorStepProcess {T R I : Type} (ids : List (List String))
    (observations : List (List (String × T)))
    (rewards : List (List (String × R)))
    (terminateds truncateds : List (List (String × Bool)))
    (nested_infos : List (List (String × I)))
    (initial_obs : List (Nat × List (String × T)))
    (initial_infos : List (Nat × List (String × I))) :
    Except PyErr (List (Option T) × List (Option R) × List (Option Bool) ×
      List (Option Bool) × List (Nat × GymStepInfo T I)) := do
  let array_rewards ← flattenOpt ids rewards
  let array_terminateds ← flattenOpt ids terminateds
  let array_truncateds ← flattenOpt ids truncateds
  let _ ← gymMixedCheckLoop ids terminateds truncateds 0 ids
  let r ← gymInfoLoop ids nested_infos initial_obs initial_infos 0 ids
    observations []
  let flatObs ← flattenOpt ids r.1
  pure (flatObs, array_rewards, array_terminateds, array_truncateds, r.2)

/-! ## Construction-time validation and teardown (C7, C8)

`get_definition` returns the nested ids together with observation/action
space tables of type `Dict[int, Dict[str, gym.Space]]`, modelled as
`List (Nat × List (String × S))` for an abstract space type `S`.  Teardown
side effects (`protocol.close()`, `simulator.stop()`) are recorded as an
effect trace. -/

/-- Side effects performed by an adapter's failure-cleanup path. -/
inductive Effect where
  | protocolClose
  | simulatorStop
deriving DecidableEq, Repr

/-- `defns[e][a]` on a `Dict[int, Dict[str, S]]` space table. -/
def dictGet2? {S : Type} (defns : List (Nat × List (String × S))) (e : Nat)
    (a : String) : Except PyErr S := do
  let d ← orRaise (dictGet? defns e) .keyError
  orRaise (dictGet? d a) .keyError

/-- Run a computation that precedes an adapter's `try` block: its errors
propagate without any teardown side effect. -/
def preTry {A B : Type} (pre : Except PyErr A)
    (k : A → Except PyErr B × List Effect) : Except PyErr B × List Effect :=
  match pre with
  | .error err => (.error err, [])
  | .ok a => k a

/-- Run an adapter's `try` body: an error runs `protocol.close()` then
`simulator.stop()` before re-raising. -/
def withTeardown {A : Type} (body : Except PyErr A) :
    Except PyErr A × List Effect :=
  match body with
  | .ok v => (.ok v, [])
  | .error err => (.error err, [.protocolClose, .simulatorStop])

/-- The `for env_id, agent_id_list in enumerate(...): if len == 0: raise
NoAgentsException(env_id)` loop shared by the adapters' validation code. -/
def validateAgentsLoop : List (List String) → Nat → Except PyErr Unit
  | [], _ => .ok ()
  | env :: rest, e =>
      if env.length = 0 then .error (.noAgents e)
      else validateAgentsLoop rest (e + 1)

/-- The space-uniformity assertion loop of `VecEnv._define_environment` and
`GymVectorEnv._define_environment`: for each `(env_id, agent_id)` in
`id_manager.id_list`, assert the action then the observation space equals
the pair-0 space (the dict lookups themselves can raise `KeyError`). -/
def checkSpacesLoop {S : Type} [DecidableEq S]
    (obs_defns action_defns : List (Nat × List (String × S)))
    (obs_space action_space : S) : List (Nat × String) → Except PyErr Unit
  | [] => .ok ()
  | (e, a) :: rest => do
      let asp ← dictGet2? action_defns e a
      if asp = action_space then
        let osp ← dictGet2? obs_defns e a
        if osp = obs_space then
          checkSpacesLoop obs_defns action_defns obs_space action_space rest
        else .error .assertionError
      else .error .assertionError

/-- `VecEnv._define_environment` (`schola/sb3/env.py`).  The
`id_manager[0]` lookup and the pair-0 space lookups happen *before* the
`try` block, so their errors propagate without teardown; errors raised
inside the `try` block run `protocol.close(); simulator.stop()` first. -/
def sb3DefineEnvironment {S : Type} [DecidableEq S]
    (ids : List (List String))
    (obs_defns action_defns : List (Nat × List (String × S))) :
    Except PyErr (S × S) × List Effect :=
  preTry (orRaise ((id_list ids).get? 0) .indexError) fun p =>
  preTry (dictGet2? action_defns p.1 p.2) fun action_space =>
  preTry (dictGet2? obs_defns p.1 p.2) fun obs_space =>
  withTeardown (
    if ids.length = 0 then .error .noEnvironments
    else
      (validateAgentsLoop ids 0) >>= fun _ =>
      (checkSpacesLoop obs_defns action_defns obs_space action_space
        (id_list ids)) >>= fun _ =>
      .ok (obs_space, action_space))

/-- `GymVectorEnv._define_environment` (`build/lib/schola/gym/env.py`).
`gym.vector.utils.batch_differing_spaces` is an external gymnasium
collaborator, modelled as a parameter returning `none` when it raises
(surfaced as `externalError`); it is applied to the flattened space tables
*before* `id_manager[0]` and the `try` block. -/
def gymVectorDefineEnvironment {S : Type} [DecidableEq S]
    (batchSpaces : List (Option S) → Option S)
    (ids : List (List String))
    (obs_defns action_defns : List (Nat × List (String × S))) :
    Except PyErr (S × S) × List Effect :=
  preTry (flatten_dict_of_dicts ids
      (action_defns.map (fun p => (p.1, p.2.map (fun q => (q.1, some q.2)))))
      none) fun flatActs =>
  preTry (orRaise (batchSpaces flatActs) .externalError) fun _ =>
  preTry (flatten_dict_of_dicts ids
      (obs_defns.map (fun p => (p.1, p.2.map (fun q => (q.1, some q.2)))))
      none) fun flatObs =>
  preTry (orRaise (batchSpaces flatObs) .externalError) fun _ =>
  preTry (orRaise ((id_list ids).get? 0) .indexError) fun p =>
  preTry (dictGet2? action_defns p.1 p.2) fun action_space =>
  preTry (dictGet2? obs_defns p.1 p.2) fun obs_space =>
  withTeardown (
    if ids.length = 0 then .error .noEnvironments
    else
      (validateAgentsLoop ids 0) >>= fun _ =>
      (checkSpacesLoop obs_defns action_defns obs_space action_space
        (id_list ids)) >>= fun _ =>
      .ok (obs_space, action_space))

/-- The loop of `BaseRayEnv._build_spaces`: for each agent key of
`obs_defns[first_env_id]`, look up `action_defns[first_env_id][agent_id]`. -/
def rayBuildSpacesLoop {S : Type}
    (action_defns : List (Nat × List (String × S))) (e0 : Nat) :
    List String → Except PyErr Unit
  | [] => .ok ()
  | a :: rest =>
      (dictGet2? action_defns e0 a) >>= fun _ =>
        rayBuildSpacesLoop action_defns e0 rest

/-- `BaseRayEnv._build_spaces` (error behaviour): iterate the agents of the
first environment's observation table, touching the matching action
entries. -/
def rayBuildSpaces {S : Type}
    (obs_defns action_defns : List (Nat × List (String × S))) (e0 : Nat) :
    Except PyErr Unit :=
  (orRaise (dictGet? obs_defns e0) .keyError) >>= fun obsEnv =>
    rayBuildSpacesLoop action_defns e0 (dictKeys obsEnv)

/-- `BaseRayEnv._validate_environments`: the no-environments / no-agents
checks wrapped in their own `try`/`except protocol.close(); simulator.stop();
raise` block. -/
def rayValidateEnvironments (ids : List (List String)) :
    Except PyErr Unit × List Effect :=
  let body : Except PyErr Unit :=
    if ids.length = 0 then .error .noEnvironments
    else validateAgentsLoop ids 0
  match body with
  | .ok _ => (.ok (), [])
  | .error err => (.error err, [.protocolClose, .simulatorStop])

/-- `RayVecEnv._define_environment`: `id_manager[0]` and `_build_spaces`
run *before* `_validate_environments`, so their errors propagate without
teardown. -/
def rayVecDefineEnvironment {S : Type}
    (ids : List (List String))
    (obs_defns action_defns : List (Nat × List (String × S))) :
    Except PyErr Unit × List Effect :=
  preTry (orRaise ((id_list ids).get? 0) .indexError) fun p =>
  preTry (rayBuildSpaces obs_defns action_defns p.1) fun _ =>
  rayValidateEnvironments ids

/-- `GymEnv._define_environment` (`build/lib/schola/gym/env.py`): the
`id_manager[0]` and pair-0 space lookups happen before the `try` block; the
single-agent arity assertion inside it tears down before re-raising. -/
def gymEnvDefineEnvironment {S : Type}
    (ids : List (List String))
    (obs_defns action_defns : List (Nat × List (String × S))) :
    Except PyErr (String × S × S) × List Effect :=
  preTry (orRaise ((id_list ids).get? 0) .indexError) fun p =>
  preTry (dictGet2? action_defns p.1 p.2) fun action_space =>
  preTry (dictGet2? obs_defns p.1 p.2) fun obs_space =>
  withTeardown (
    if num_ids ids = 1 then .ok (p.2, action_space, obs_space)
    else .error .assertionError)

/-- `ScholaDataCollector.__init__` (`schola/minari/datacollector.py`): the
`id_manager[0]` lookup, the single-pair arity assertion and the space
lookups are *not* wrapped in any `try`/`except`, so none of their errors
trigger `protocol.close()` / `simulator.stop()`. -/
def scholaDataCollectorInit {S : Type}
    (ids : List (List String))
    (observation_spaces action_spaces : List (Nat × List (String × S))) :
    Except PyErr (S × S) × List Effect :=
  preTry (orRaise ((id_list ids).get? 0) .indexError) fun p =>
  if num_ids ids = 1 then
    preTry (dictGet2? observation_spaces p.1 p.2) fun osp =>
    preTry (dictGet2? action_spaces p.1 p.2) fun asp =>
    (.ok (osp, asp), [])
  else (.error .assertionError, [])

/-! ## `GymVectorEnv.reset` seeding and options (C9, C10)

numpy's `SeedSequence(entropy=S).spawn(...)` / `generate_state(1)` pipeline
is an external collaborator: a fresh `SeedSequence` is constructed from the
integer seed on every call, so the derived child states are a deterministic
pure function of `(entropy, child_index)`, modelled by the abstract
parameter `spawnState`.  `reset` first calls `spawn(1)` (child 0, used only
to seed the adapter's own RNG) and then `spawn(self.num_envs)` (children
`1 .. num_envs`), converting each state through `np.int32(...).item()`. -/

/-- `np.int32(x).item()` on a `uint32` state: two's-complement wrap. -/
def int32OfUInt32 (n : Nat) : Int :=
  let m : Nat := n % 2 ^ 32
  if m < 2 ^ 31 then (m : Int) else (m : Int) - 2 ^ 32

/-- The `seed` argument of `GymVectorEnv.reset`. -/
inductive GymSeed where
  | noSeed
  | int (s : Nat)
  | list (l : List Int)

/-- The seed-processing prefix of `GymVectorEnv.reset`: an integer seed is
expanded into `num_envs` derived sub-seeds (children `1 .. num_envs` of a
fresh `SeedSequence`), after which the expanded list also passes through
the `isinstance(seed, list)` length assertion; a list seed must have length
exactly `num_envs`. -/
def gymVectorResetSeeds (numEnvs : Nat) (spawnState : Nat → Nat → Nat) :
    GymSeed → Except PyErr (Option (List Int))
  | .noSeed => .ok none
  | .int s =>
      let seedList :=
        (List.range numEnvs).map (fun j => int32OfUInt32 (spawnState s (j + 1)))
      if seedList.length = numEnvs then .ok (some seedList)
      else .error .assertionError
  | .list l =>
      if l.length = numEnvs then .ok (some l) else .error .assertionError

/-- The options-processing prefix of `GymVectorEnv.reset`.  A `reset_mask`
key raises `NotImplementedError`; otherwise the loop body
`processed_options[env_id][f"{agent_id}_{key}"] = value` reads the local
variables `env_id` and `agent_id`, which are assigned only *later* in the
function, so its first iteration raises `UnboundLocalError` (a subclass of
`NameError`).  An empty options dict runs zero iterations and forwards a
list of empty per-environment dicts. -/
def gymVectorResetOptions {V : Type} (numEnvs : Nat) :
    Option (List (String × V)) →
    Except PyErr (Option (List (List (String × V))))
  | none => .ok none
  | some opts =>
      if "reset_mask" ∈ dictKeys opts then .error .notImplementedError
      else
        match opts with
        | [] => .ok (some (List.replicate numEnvs []))
        | _ :: _ => .error .unboundLocalError

/-- The front end of `GymVectorEnv.reset` up to (but not including) the
`send_reset_msg` transport call: what would be sent as seeds and options. -/
def gymVectorResetMsg {V : Type} (numEnvs : Nat)
    (spawnState : Nat → Nat → Nat) (seed : GymSeed)
    (options : Option (List (String × V))) :
    Except PyErr (Option (List Int) × Option (List (List (String × V)))) := do
  let seeds ← gymVectorResetSeeds numEnvs spawnState seed
  let opts ← gymVectorResetOptions numEnvs options
  pure (seeds, opts)

end Schola

/-! # Theorems -/

namespace Schola

@[simp] theorem orRaise_some {α : Type} (a : α) (e : PyErr) :
    orRaise (some a) e = .ok a := rfl

@[simp] theorem orRaise_none {α : Type} (e : PyErr) :
    orRaise (none : Option α) e = .error e := rfl

@[simp] theorem except_bind_ok {ε α β : Type} (a : α) (f : α → Except ε β) :
    (Except.ok a >>= f) = f a := rfl

@[simp] theorem except_bind_error {ε α β : Type} (e : ε)
    (f : α → Except ε β) :
    ((Except.error e : Except ε α) >>= f) = Except.error e := rfl

@[simp] theorem except_pure_eq_ok {ε α : Type} (a : α) :
    (pure a : Except ε α) = Except.ok a := rfl

@[simp] theorem except_map_ok {ε α β : Type} (f : α → β) (a : α) :
    (f <$> (Except.ok a : Except ε α)) = Except.ok (f a) := rfl

@[simp] theorem except_map_error {ε α β : Type} (f : α → β) (e : ε) :
    (f <$> (Except.error e : Except ε α)) = Except.error e := rfl

@[simp] theorem dictGet?_nil {κ α : Type} [DecidableEq κ] (k : κ) :
    dictGet? ([] : List (κ × α)) k = none := rfl

theorem dictGet?_cons {κ α : Type} [DecidableEq κ] (k' k : κ) (v : α) (rest) :
    dictGet? ((k', v) :: rest) k =
      if k' = k then some v else dictGet? rest k := rfl

theorem dictGet?_pyDictInsert_self {κ α : Type} [DecidableEq κ]
    (d : List (κ × α)) (k : κ) (v : α) :
    dictGet? (pyDictInsert d k v) k = some v := by
  induction d with
  | nil => simp [pyDictInsert, dictGet?]
  | cons p rest ih =>
      obtain ⟨k', v'⟩ := p
      by_cases h : k' = k <;> simp [pyDictInsert, dictGet?, h, ih]

theorem dictGet?_pyDictInsert_ne {κ α : Type} [DecidableEq κ]
    (d : List (κ × α)) (k k' : κ) (v : α) (h : k' ≠ k) :
    dictGet? (pyDictInsert d k v) k' = dictGet? d k' := by
  induction d with
  | nil =>
      simp only [pyDictInsert, dictGet?, if_neg (Ne.symm h)]
  | cons p rest ih =>
      obtain ⟨k'', v''⟩ := p
      by_cases h1 : k'' = k
      · subst h1
        simp only [pyDictInsert, if_pos rfl, dictGet?, if_neg (Ne.symm h)]
      · simp only [pyDictInsert, if_neg h1, dictGet?, ih]

theorem dictGet?_append_notmem {κ α : Type} [DecidableEq κ]
    (l1 l2 : List (κ × α)) (k : κ) (h : k ∉ dictKeys l1) :
    dictGet? (l1 ++ l2) k = dictGet? l2 k := by
  induction l1 with
  | nil => rfl
  | cons p rest ih =>
      obtain ⟨k', v⟩ := p
      simp only [dictKeys, List.map_cons, List.mem_cons, not_or] at h
      simp only [List.cons_append, dictGet?, if_neg (Ne.symm h.1)]
      exact ih (by simpa [dictKeys] using h.2)

theorem pyDictInsert_notmem {κ α : Type} [DecidableEq κ]
    (d : List (κ × α)) (k : κ) (v : α) (h : k ∉ dictKeys d) :
    pyDictInsert d k v = d ++ [(k, v)] := by
  induction d with
  | nil => rfl
  | cons p rest ih =>
      obtain ⟨k', v'⟩ := p
      simp only [dictKeys, List.map_cons, List.mem_cons, not_or] at h
      simp only [pyDictInsert, if_neg (Ne.symm h.1), List.cons_append,
        List.cons.injEq, true_and]
      exact ih (by simpa [dictKeys] using h.2)

theorem pyDictInsert_append_mem {κ α : Type} [DecidableEq κ]
    (l1 l2 : List (κ × α)) (k : κ) (w v : α) (h : k ∉ dictKeys l1) :
    pyDictInsert (l1 ++ (k, w) :: l2) k v = l1 ++ (k, v) :: l2 := by
  induction l1 with
  | nil => simp [pyDictInsert]
  | cons p rest ih =>
      obtain ⟨k', v'⟩ := p
      simp only [dictKeys, List.map_cons, List.mem_cons, not_or] at h
      simp only [List.cons_append, pyDictInsert, if_neg (Ne.symm h.1),
        List.cons.injEq, true_and]
      exact ih (by simpa [dictKeys] using h.2)

theorem list_set_append_right {α : Type} (l1 l2 : List α) (i : Nat) (v : α) :
    (l1 ++ l2).set (l1.length + i) v = l1 ++ l2.set i v := by
  induction l1 with
  | nil => simp
  | cons a rest ih => simp [List.set, ih, Nat.succ_add]

theorem buildEnvMap_get_notmem : ∀ (env : List String) (uid : Nat)
    (d : List (String × Nat)) (a : String), a ∉ env →
    dictGet? (buildEnvMap env uid d) a = dictGet? d a
  | [], _, _, _, _ => rfl
  | b :: rest, uid, d, a, h => by
      simp only [List.mem_cons, not_or] at h
      rw [buildEnvMap, buildEnvMap_get_notmem rest (uid + 1) _ a h.2,
        dictGet?_pyDictInsert_ne d b a uid h.1]

theorem buildEnvMap_get_mem : ∀ (env : List String), env.Nodup →
    ∀ (i : Nat) (hi : i < env.length) (uid : Nat) (d : List (String × Nat)),
    dictGet? (buildEnvMap env uid d) (env.get ⟨i, hi⟩) = some (uid + i)
  | [], _, i, hi, _, _ => absurd hi (by simp)
  | a :: rest, hnd, 0, hi, uid, d => by
      rw [List.nodup_cons] at hnd
      show dictGet? (buildEnvMap rest (uid + 1) (pyDictInsert d a uid)) a =
        some (uid + 0)
      rw [buildEnvMap_get_notmem rest (uid + 1) _ a hnd.1,
        dictGet?_pyDictInsert_self]
      rfl
  | a :: rest, hnd, i + 1, hi, uid, d => by
      rw [List.nodup_cons] at hnd
      show dictGet? (buildEnvMap rest (uid + 1) (pyDictInsert d a uid))
        (rest.get ⟨i, Nat.lt_of_succ_lt_succ (by simpa using hi)⟩) =
        some (uid + (i + 1))
      rw [buildEnvMap_get_mem rest hnd.2 i _ (uid + 1) (pyDictInsert d a uid)]
      congr 1
      omega

theorem buildEnvMap_get_bound : ∀ (env : List String) (uid : Nat)
    (d : List (String × Nat)) (a : String) (v : Nat),
    dictGet? (buildEnvMap env uid d) a = some v →
    (uid ≤ v ∧ v < uid + env.length) ∨ dictGet? d a = some v
  | [], _, _, _, _, h => Or.inr h
  | b :: rest, uid, d, a, v, h => by
      rw [buildEnvMap] at h
      rcases buildEnvMap_get_bound rest (uid + 1) (pyDictInsert d b uid) a v h
        with hin | hd
      · exact Or.inl ⟨by omega, by simp only [List.length_cons]; omega⟩
      · by_cases hb : a = b
        · subst hb
          rw [dictGet?_pyDictInsert_self] at hd
          obtain rfl := Option.some.inj hd
          exact Or.inl ⟨Nat.le_refl _, by simp only [List.length_cons]; omega⟩
        · rw [dictGet?_pyDictInsert_ne d b a uid hb] at hd
          exact Or.inr hd

@[simp] theorem idListAux_length (ids : List (List String)) (e : Nat) :
    (idListAux ids e).length = num_ids ids := by
  induction ids generalizing e with
  | nil => rfl
  | cons env rest ih => simp [idListAux, num_ids, ih]

@[simp] theorem id_list_length (ids : List (List String)) :
    (id_list ids).length = num_ids ids := idListAux_length ids 0

@[simp] theorem buildIdMap_length (ids : List (List String)) (uid : Nat) :
    (buildIdMap ids uid).length = ids.length := by
  induction ids generalizing uid with
  | nil => rfl
  | cons env rest ih => simp [buildIdMap, ih]

theorem idListAux_succ (ids : List (List String)) (e : Nat) :
    idListAux ids (e + 1) = (idListAux ids e).map (fun p => (p.1 + 1, p.2)) := by
  induction ids generalizing e with
  | nil => rfl
  | cons env rest ih => simp [idListAux, ih (e + 1)]

/-- Key lemma for the index bijection: looking the `uid`-th nested pair back
up in `id_map` recovers `uid` (shifted by the starting counter `uid0`),
provided agent ids are unique within each environment. -/
theorem idMap_idList_get : ∀ (ids : List (List String)) (uid0 : Nat),
    (∀ env ∈ ids, env.Nodup) → ∀ (uid e : Nat) (a : String),
    (idListAux ids 0).get? uid = some (e, a) →
    ((buildIdMap ids uid0).get? e).bind (fun d => dictGet? d a) =
      some (uid0 + uid)
  | [], _, _, uid, e, a, h => by simp [idListAux] at h
  | env :: rest, uid0, hnd, uid, e, a, h => by
      simp only [idListAux] at h
      by_cases hlt : uid < env.length
      · rw [List.get?_append (by simpa using hlt), List.get?_map] at h
        cases hgg : env.get? uid with
        | none => rw [hgg] at h; simp at h
        | some b =>
            rw [hgg] at h
            simp only [Option.map_some', Option.some.injEq, Prod.mk.injEq] at h
            obtain ⟨he, ha⟩ := h
            subst he; subst ha
            simp only [buildIdMap, List.get?_cons_zero, Option.some_bind]
            obtain ⟨hlt', hb⟩ := List.get?_eq_some.mp hgg
            rw [← hb]
            exact buildEnvMap_get_mem env (hnd env (List.mem_cons_self _ _))
              uid hlt' uid0 []
      · have hlen : (env.map (fun a => ((0 : Nat), a))).length ≤ uid := by
          simpa using Nat.le_of_not_lt hlt
        rw [List.get?_append_right hlen] at h
        simp only [List.length_map] at h
        rw [show (0 : Nat) + 1 = 0 + 1 from rfl, idListAux_succ rest 0,
          List.get?_map] at h
        cases hgg : (idListAux rest 0).get? (uid - env.length) with
        | none => rw [hgg] at h; simp at h
        | some p =>
            obtain ⟨e', a'⟩ := p
            rw [hgg] at h
            simp only [Option.map_some', Option.some.injEq, Prod.mk.injEq] at h
            obtain ⟨he, ha⟩ := h
            subst ha
            have hrest := idMap_idList_get rest (uid0 + env.length)
              (fun env' h' => hnd env' (List.mem_cons_of_mem _ h'))
              (uid - env.length) e' a' hgg
            subst he
            simp only [buildIdMap, List.get?_cons_succ]
            rw [hrest]
            congr 1
            omega

/-- **C1**: for every valid nested id structure (agent ids unique within each
environment) and every flat index `uid < num_ids`, converting `uid` to its
nested pair through the `id_list` lookup and converting that pair back
through the `id_map` lookup yields `uid` again. -/
theorem id_manager_index_bijection (ids : List (List String))
    (hnd : ∀ env ∈ ids, env.Nodup) (uid : Nat) (h : uid < num_ids ids) :
    ∃ e a, get_nested_id ids uid = .ok (e, a) ∧
      get_flattened_id ids e a = .ok uid := by
  have hlen : uid < (id_list ids).length := by simpa using h
  cases hget : (id_list ids).get? uid with
  | none =>
      exact absurd (List.get?_eq_none.mp hget) (Nat.not_le_of_lt hlen)
  | some p =>
      obtain ⟨e, a⟩ := p
      refine ⟨e, a, by simp only [get_nested_id, hget, orRaise_some], ?_⟩
      have hmain := idMap_idList_get ids 0 hnd uid e a hget
      simp only [Nat.zero_add] at hmain
      rw [get_flattened_id]
      cases hm : (buildIdMap ids 0).get? e with
      | none => rw [hm] at hmain; simp at hmain
      | some d =>
          rw [hm] at hmain
          simp only [Option.some_bind] at hmain
          simp only [id_map, hm, orRaise_some, except_bind_ok, hmain]

/-- Witness for C1 at `ids = [["alice", "bob"], ["alice"]]`, `uid = 2`. -/
theorem id_manager_index_bijection_witness :
    ∃ e a, get_nested_id [["alice", "bob"], ["alice"]] 2 = .ok (e, a) ∧
      get_flattened_id [["alice", "bob"], ["alice"]] e a = .ok 2 :=
  id_manager_index_bijection [["alice", "bob"], ["alice"]]
    (by decide) 2 (by decide)

/-! ### The nest/flatten round trip (C2) -/

theorem list_set_append_zero {α : Type} (l1 l2 : List α) (v : α) :
    (l1 ++ l2).set l1.length v = l1 ++ l2.set 0 v := by
  simpa using list_set_append_right l1 l2 0 v

theorem replicate_set_zero {α : Type} (k : Nat) (d v : α) :
    (List.replicate (k + 1) d).set 0 v = v :: List.replicate k d := by
  simp [List.replicate, List.set]

theorem dictOfKeysAux_eq {α : Type} : ∀ (keys : List String) (v : α)
    (d : List (String × α)), keys.Nodup → (∀ a ∈ keys, a ∉ dictKeys d) →
    dictOfKeysAux keys v d = d ++ keys.map (fun a => (a, v))
  | [], v, d, _, _ => by simp [dictOfKeysAux]
  | a :: rest, v, d, hnd, hdisj => by
      rw [List.nodup_cons] at hnd
      rw [dictOfKeysAux,
        pyDictInsert_notmem d a v (hdisj a (List.mem_cons_self _ _)),
        dictOfKeysAux_eq rest v (d ++ [(a, v)]) hnd.2 (by
          intro b hb
          simp only [dictKeys, List.map_append, List.mem_append,
            List.map_cons, List.map_nil, List.mem_singleton, not_or]
          refine ⟨hdisj b (List.mem_cons_of_mem _ hb), fun hba => ?_⟩
          exact hnd.1 (hba ▸ hb))]
      simp

theorem dictOfKeys_eq {α : Type} (keys : List String) (v : α)
    (hnd : keys.Nodup) :
    dictOfKeys keys v = keys.map (fun a => (a, v)) := by
  simpa [dictOfKeys] using
    dictOfKeysAux_eq keys v [] hnd (by simp [dictKeys])

theorem buildIdMap_get : ∀ (ids : List (List String)) (uid0 e : Nat)
    (he : e < ids.length),
    (buildIdMap ids uid0).get? e =
      some (buildEnvMap (ids.get ⟨e, he⟩) (uid0 + envOffset ids e) [])
  | [], _, e, he => absurd he (by simp)
  | env :: rest, uid0, 0, _ => by
      simp [buildIdMap, envOffset]
  | env :: rest, uid0, e + 1, he => by
      have hlt : e < rest.length := by simpa using Nat.lt_of_succ_lt_succ he
      simp only [buildIdMap, List.get?_cons_succ]
      rw [buildIdMap_get rest (uid0 + env.length) e hlt]
      have hoff : envOffset (env :: rest) (e + 1) =
          env.length + envOffset rest e := by
        simp [envOffset]
      rw [hoff, ← Nat.add_assoc]
      rfl

theorem get_flattened_id_env (ids : List (List String)) (e : Nat)
    (he : e < ids.length) (hnd : (ids.get ⟨e, he⟩).Nodup)
    (i : Nat) (hi : i < (ids.get ⟨e, he⟩).length) :
    get_flattened_id ids e ((ids.get ⟨e, he⟩).get ⟨i, hi⟩) =
      .ok (envOffset ids e + i) := by
  rw [get_flattened_id, id_map, buildIdMap_get ids 0 e he]
  simp only [orRaise_some, except_bind_ok]
  rw [buildEnvMap_get_mem _ hnd i hi (0 + envOffset ids e) []]
  simp

theorem idList_get_env : ∀ (ids : List (List String)) (e : Nat)
    (he : e < ids.length) (i : Nat) (hi : i < (ids.get ⟨e, he⟩).length),
    (id_list ids).get? (envOffset ids e + i) =
      some (e, (ids.get ⟨e, he⟩).get ⟨i, hi⟩)
  | [], e, he, _, _ => absurd he (by simp)
  | env :: rest, 0, he, i, hi => by
      have hi' : i < env.length := by simpa using hi
      have : envOffset (env :: rest) 0 = 0 := by simp [envOffset]
      rw [this, Nat.zero_add, id_list, idListAux,
        List.get?_append (by simpa using hi'), List.get?_map,
        List.get?_eq_get hi']
      rfl
  | env :: rest, e + 1, he, i, hi => by
      have hlt : e < rest.length := by simpa using Nat.lt_of_succ_lt_succ he
      have hoff : envOffset (env :: rest) (e + 1) =
          env.length + envOffset rest e := by
        simp [envOffset]
      rw [hoff, id_list, idListAux]
      have hpos : (env.map (fun a => ((0 : Nat), a))).length ≤
          env.length + envOffset rest e + i := by
        simp; omega
      rw [List.get?_append_right hpos]
      simp only [List.length_map]
      have harith : env.length + envOffset rest e + i - env.length =
          envOffset rest e + i := by omega
      rw [harith, show (0 : Nat) + 1 = 0 + 1 from rfl, idListAux_succ rest 0,
        List.get?_map]
      have := idList_get_env rest e hlt i (by simpa using hi)
      rw [id_list] at this
      rw [this]
      rfl

theorem nestWrites_append {α : Type} (ids : List (List String)) :
    ∀ (xs1 xs2 : List α) (flat0 : Nat) (m : List (Nat × List (String × α))),
    nestWrites ids flat0 (xs1 ++ xs2) m =
      (nestWrites ids flat0 xs1 m) >>= fun m' =>
        nestWrites ids (flat0 + xs1.length) xs2 m'
  | [], xs2, flat0, m => by simp [nestWrites]
  | v :: rest, xs2, flat0, m => by
      simp only [List.cons_append, nestWrites, List.append_eq]
      cases hgni : get_nested_id ids flat0 with
      | error err => simp
      | ok p =>
          simp only [except_bind_ok]
          cases hst : nestStore m p.1 p.2 v with
          | error err => simp
          | ok m' =>
              simp only [except_bind_ok]
              rw [nestWrites_append ids rest xs2 (flat0 + 1) m']
              have : flat0 + (rest.length + 1) = flat0 + 1 + rest.length := by
                omega
              simp [this]

theorem nestWrites_block {α : Type} (ids : List (List String)) :
    ∀ (envSuffix : List String) (vals : List α) (flat0 e : Nat)
    (l1 l2 : List (Nat × List (String × α))) (p q : List (String × α)),
    vals.length = envSuffix.length →
    envSuffix.Nodup →
    dictKeys q = envSuffix →
    (∀ a ∈ envSuffix, a ∉ dictKeys p) →
    e ∉ dictKeys l1 →
    (∀ i (hi : i < envSuffix.length),
      (id_list ids).get? (flat0 + i) = some (e, envSuffix.get ⟨i, hi⟩)) →
    nestWrites ids flat0 vals (l1 ++ (e, p ++ q) :: l2) =
      .ok (l1 ++ (e, p ++ envSuffix.zip vals) :: l2)
  | [], vals, flat0, e, l1, l2, p, q, hv, _, hq, _, _, _ => by
      obtain rfl : vals = [] := List.length_eq_zero.mp (by simpa using hv)
      obtain rfl : q = [] := by
        cases q with
        | nil => rfl
        | cons qh qs => simp [dictKeys] at hq
      simp [nestWrites]
  | a :: rest, vals, flat0, e, l1, l2, p, q, hv, hnd, hq, hdisj, hl1, hlook => by
      cases vals with
      | nil => simp at hv
      | cons v vrest =>
      cases q with
      | nil => simp [dictKeys] at hq
      | cons qh q' =>
          obtain ⟨qk, qw⟩ := qh
          simp only [dictKeys, List.map_cons, List.cons.injEq] at hq
          obtain ⟨rfl, hq'⟩ := hq
          rw [List.nodup_cons] at hnd
          rw [nestWrites,
            show get_nested_id ids flat0 = .ok (e, qk) from by
              simpa [get_nested_id] using congrArg (orRaise · PyErr.indexError)
                (hlook 0 (by simp))]
          simp only [except_bind_ok]
          rw [nestStore,
            show dictGet? (l1 ++ (e, p ++ (qk, qw) :: q') :: l2) e =
                some (p ++ (qk, qw) :: q') from by
              rw [dictGet?_append_notmem l1 _ e hl1, dictGet?_cons, if_pos rfl]]
          simp only [orRaise_some, except_bind_ok, except_pure_eq_ok]
          rw [pyDictInsert_append_mem p q' qk qw v
            (hdisj qk (List.mem_cons_self _ _)),
            pyDictInsert_append_mem l1 l2 e _ _ hl1]
          have hrec := nestWrites_block ids rest vrest (flat0 + 1) e l1 l2
            (p ++ [(qk, v)]) q' (by simpa using hv) hnd.2 hq'
            (by
              intro b hb
              simp only [dictKeys, List.map_append, List.mem_append,
                List.map_cons, List.map_nil, List.mem_singleton, not_or]
              exact ⟨hdisj b (List.mem_cons_of_mem _ hb),
                fun hba => hnd.1 (hba ▸ hb)⟩)
            hl1
            (by
              intro i hi
              have := hlook (i + 1) (by simpa using Nat.succ_lt_succ hi)
              simpa [Nat.add_assoc, Nat.add_comm 1 i] using this)
          rw [show p ++ (qk, v) :: q' = (p ++ [(qk, v)]) ++ q' from by simp,
            hrec]
          simp [List.zip_cons_cons]

theorem flattenEnvWrites_block {α : Type} (ids : List (List String)) :
    ∀ (env : List String) (vals : List α) (e : Nat)
    (pre : List α) (k : Nat) (d' : α),
    vals.length = env.length →
    env.length ≤ k →
    (∀ i (hi : i < env.length),
      get_flattened_id ids e (env.get ⟨i, hi⟩) = .ok (pre.length + i)) →
    flattenEnvWrites ids e (env.zip vals) (pre ++ List.replicate k d') =
      .ok (pre ++ vals ++ List.replicate (k - env.length) d')
  | [], vals, e, pre, k, d', hv, _, _ => by
      obtain rfl : vals = [] := List.length_eq_zero.mp (by simpa using hv)
      simp [flattenEnvWrites]
  | a :: rest, vals, e, pre, k, d', hv, hk, hlook => by
      cases vals with
      | nil => simp at hv
      | cons v vrest =>
          cases k with
          | zero => simp at hk
          | succ k' =>
              rw [List.zip_cons_cons, flattenEnvWrites, flattenWrite,
                show get_flattened_id ids e a = .ok (pre.length + 0) from
                  hlook 0 (by simp)]
              simp only [except_bind_ok]
              have hset : pyListSet (pre ++ List.replicate (k' + 1) d')
                  (pre.length + 0) v = .ok ((pre ++ [v]) ++ List.replicate k' d') := by
                rw [pyListSet, if_pos (by simp)]
                rw [show pre.length + 0 = pre.length from rfl,
                  list_set_append_zero, replicate_set_zero]
                simp
              rw [hset]
              simp only [except_bind_ok]
              have hrec := flattenEnvWrites_block ids rest vrest e (pre ++ [v])
                k' d' (by simpa using hv) (by simpa using hk)
                (by
                  intro i hi
                  have := hlook (i + 1) (by simpa using Nat.succ_lt_succ hi)
                  simpa [Nat.add_assoc, Nat.add_comm 1 i] using this)
              rw [hrec]
              have h2 : k' + 1 - (a :: rest).length = k' - rest.length := by
                simp only [List.length_cons]; omega
              rw [h2]
              simp

theorem flattenDictLoop_blocks {α : Type} (ids : List (List String)) :
    ∀ (envs : List (List String)) (e0 : Nat) (xsv : List α)
    (pre : List α) (k : Nat) (d' : α),
    xsv.length = (envs.map List.length).sum →
    xsv.length ≤ k →
    (∀ j (hj : j < envs.length) i (hi : i < (envs.get ⟨j, hj⟩).length),
      get_flattened_id ids (e0 + j) ((envs.get ⟨j, hj⟩).get ⟨i, hi⟩) =
        .ok (pre.length + envOffset envs j + i)) →
    flattenDictLoop ids (canonNest envs xsv e0) (pre ++ List.replicate k d') =
      .ok (pre ++ xsv ++ List.replicate (k - xsv.length) d')
  | [], e0, xsv, pre, k, d', hlen, _, _ => by
      obtain rfl : xsv = [] := List.length_eq_zero.mp (by simpa using hlen)
      simp [canonNest, flattenDictLoop]
  | env :: rest, e0, xsv, pre, k, d', hlen, hk, hlook => by
      have hsum : xsv.length = env.length + (rest.map List.length).sum := by
        simpa using hlen
      have henvle : env.length ≤ xsv.length := by omega
      have hx0len : (xsv.take env.length).length = env.length := by
        simp [List.length_take]; omega
      rw [canonNest, flattenDictLoop]
      have hblock := flattenEnvWrites_block ids env (xsv.take env.length) e0
        pre k d' hx0len (by omega)
        (by
          intro i hi
          have := hlook 0 (by simp) i (by simpa using hi)
          have hz : envOffset (env :: rest) 0 = 0 := by simp [envOffset]
          simpa [hz] using this)
      rw [hblock]
      simp only [except_bind_ok]
      have hrec := flattenDictLoop_blocks ids rest (e0 + 1)
        (xsv.drop env.length) (pre ++ xsv.take env.length) (k - env.length) d'
        (by simp; omega)
        (by simp; omega)
        (by
          intro j hj i hi
          have := hlook (j + 1) (by simpa using Nat.succ_lt_succ hj) i hi
          have hoff : envOffset (env :: rest) (j + 1) =
              env.length + envOffset rest j := by
            simp [envOffset]
          have harith : pre.length + envOffset (env :: rest) (j + 1) + i =
              (pre ++ xsv.take env.length).length + envOffset rest j + i := by
            rw [List.length_append, hx0len, hoff]; omega
          have he0 : e0 + (j + 1) = e0 + 1 + j := by omega
          rw [harith, he0] at this
          simpa using this)
      rw [hrec]
      have hfin : (pre ++ xsv.take env.length) ++ xsv.drop env.length ++
          List.replicate (k - env.length - (xsv.drop env.length).length) d' =
          pre ++ xsv ++ List.replicate (k - xsv.length) d' := by
        have hdroplen : (xsv.drop env.length).length =
            xsv.length - env.length := by simp
        have : k - env.length - (xsv.drop env.length).length =
            k - xsv.length := by omega
        rw [this, List.append_assoc pre, List.take_append_drop]
      rw [hfin]

theorem nestWrites_all {α : Type} (ids : List (List String)) (d : α) :
    ∀ (envs : List (List String)) (e0 flat0 : Nat) (xsv : List α)
    (done : List (Nat × List (String × α))),
    (∀ ke ∈ dictKeys done, ke < e0) →
    (∀ env ∈ envs, env.Nodup) →
    xsv.length = (envs.map List.length).sum →
    (∀ j (hj : j < envs.length) i (hi : i < (envs.get ⟨j, hj⟩).length),
      (id_list ids).get? (flat0 + envOffset envs j + i) =
        some (e0 + j, (envs.get ⟨j, hj⟩).get ⟨i, hi⟩)) →
    nestWrites ids flat0 xsv (done ++ nestInitAux envs d e0) =
      .ok (done ++ canonNest envs xsv e0)
  | [], e0, flat0, xsv, done, _, _, hlen, _ => by
      obtain rfl : xsv = [] := List.length_eq_zero.mp (by simpa using hlen)
      simp [nestInitAux, canonNest, nestWrites]
  | env :: rest, e0, flat0, xsv, done, hdone, hnd, hlen, hlook => by
      have hsum : xsv.length = env.length + (rest.map List.length).sum := by
        simpa using hlen
      have hx0len : (xsv.take env.length).length = env.length := by
        simp [List.length_take]; omega
      have hndenv : env.Nodup := hnd env (List.mem_cons_self _ _)
      rw [← List.take_append_drop env.length xsv, nestWrites_append]
      rw [nestInitAux]
      have hblock := nestWrites_block ids env (xsv.take env.length) flat0 e0
        done (nestInitAux rest d (e0 + 1)) [] (dictOfKeys env d)
        hx0len hndenv
        (by
          rw [dictOfKeys_eq env d hndenv]
          simp [dictKeys, Function.comp_def])
        (by simp [dictKeys])
        (fun hmem => absurd (hdone e0 hmem) (Nat.lt_irrefl e0))
        (by
          intro i hi
          have := hlook 0 (by simp) i (by simpa using hi)
          have hz : envOffset (env :: rest) 0 = 0 := by simp [envOffset]
          simpa [hz] using this)
      rw [show ([] : List (String × α)) ++ dictOfKeys env d = dictOfKeys env d
          from by simp] at hblock
      rw [hblock]
      simp only [except_bind_ok, List.nil_append]
      have hrec := nestWrites_all ids d rest (e0 + 1) (flat0 + env.length)
        (xsv.drop env.length) (done ++ [(e0, env.zip (xsv.take env.length))])
        (by
          intro ke hke
          simp only [dictKeys, List.map_append, List.mem_append,
            List.map_cons, List.map_nil, List.mem_singleton] at hke
          rcases hke with hke | hke
          · exact Nat.lt_succ_of_lt (hdone ke hke)
          · subst hke; exact Nat.lt_succ_self _)
        (fun env' h' => hnd env' (List.mem_cons_of_mem _ h'))
        (by simp; omega)
        (by
          intro j hj i hi
          have := hlook (j + 1) (by simpa using Nat.succ_lt_succ hj) i hi
          have hoff : envOffset (env :: rest) (j + 1) =
              env.length + envOffset rest j := by
            simp [envOffset]
          have harith : flat0 + envOffset (env :: rest) (j + 1) + i =
              flat0 + env.length + envOffset rest j + i := by
            simp [hoff]; omega
          rw [harith] at this
          have harith2 : e0 + (j + 1) = e0 + 1 + j := by omega
          rw [harith2] at this
          simpa using this)
      rw [show done ++ (e0, env.zip (xsv.take env.length)) ::
            nestInitAux rest d (e0 + 1) =
          (done ++ [(e0, env.zip (xsv.take env.length))]) ++
            nestInitAux rest d (e0 + 1) from by simp,
        show (xsv.take env.length).length = env.length from hx0len, hrec]
      rw [canonNest]
      simp

theorem nest_eq_canonNest {α : Type} (ids : List (List String))
    (hnd : ∀ env ∈ ids, env.Nodup) (xs : List α)
    (hx : xs.length = num_ids ids) (d : α) :
    nest_list_to_dict_of_dicts ids xs d = .ok (canonNest ids xs 0) := by
  have := nestWrites_all ids d ids 0 0 xs []
    (by simp [dictKeys]) hnd (by simpa [num_ids] using hx)
    (by
      intro j hj i hi
      have := idList_get_env ids j hj i hi
      simpa using this)
  simpa [nest_list_to_dict_of_dicts] using this

/-- **C2 counterexample**: the round-trip law *as stated* composes
`flatten_list_of_dicts` with the dict returned by
`nest_list_to_dict_of_dicts`; evaluated on the valid structure
`ids = [["alice"]]` and the flat list `[5]`, Python raises `AttributeError`
inside `flatten_list_of_dicts` (iterating `enumerate` over a dict yields
the dict's integer keys, on which `.items()` does not exist), so the
composite does not return the original list. -/
theorem roundtrip_as_stated_counterexample :
    ((nest_list_to_dict_of_dicts [["alice"]] [(5 : Nat)] 0) >>= fun m =>
      flatten_list_of_dicts_on_dict [["alice"]] m 0) ≠ .ok [(5 : Nat)] := by
  intro h
  rw [show ((nest_list_to_dict_of_dicts [["alice"]] [(5 : Nat)] 0) >>= fun m =>
      flatten_list_of_dicts_on_dict [["alice"]] m 0) =
      .error .attributeError from rfl] at h
  exact Except.noConfusion h

/-- **C2 (amended)**: for every `IdManager` built from a valid nested id
structure (agent ids unique within each environment) and every flat sequence
`xs` of length `num_ids`, applying `flatten_dict_of_dicts` — the dict-source
variant, which is the helper that actually accepts the
`Dict[int, Dict[str, T]]` produced by `nest_list_to_dict_of_dicts` — to
`nest_list_to_dict_of_dicts xs` returns `xs` (for any defaults). -/
theorem id_manager_roundtrip_amended {α : Type} (ids : List (List String))
    (hnd : ∀ env ∈ ids, env.Nodup) (xs : List α)
    (hx : xs.length = num_ids ids) (d d' : α) :
    ((nest_list_to_dict_of_dicts ids xs d) >>= fun m =>
      flatten_dict_of_dicts ids m d') = .ok xs := by
  rw [nest_eq_canonNest ids hnd xs hx d]
  simp only [except_bind_ok]
  rw [flatten_dict_of_dicts]
  have := flattenDictLoop_blocks ids ids 0 xs [] (num_ids ids) d'
    (by simpa [num_ids] using hx) (le_of_eq hx)
    (by
      intro j hj i hi
      have := get_flattened_id_env ids j hj (hnd _ (List.get_mem ids j hj)) i hi
      simpa using this)
  rw [show ([] : List α) ++ List.replicate (num_ids ids) d' =
    List.replicate (num_ids ids) d' from by simp] at this
  rw [this, hx]
  simp

/-- Witness for the amended C2 at
`ids = [["alice", "bob"], ["carol"]]`, `xs = [10, 20, 30]`. -/
theorem id_manager_roundtrip_amended_witness :
    ((nest_list_to_dict_of_dicts [["alice", "bob"], ["carol"]]
        [(10 : Nat), 20, 30] 0) >>= fun m =>
      flatten_dict_of_dicts [["alice", "bob"], ["carol"]] m 0) =
      .ok [(10 : Nat), 20, 30] :=
  id_manager_roundtrip_amended [["alice", "bob"], ["carol"]] (by decide)
    [10, 20, 30] (by decide) 0 0

/-! ### RLlib liveness tracking and `__all__` aggregates (C3, C4) -/

theorem dictGet?_some_mem_keys {α : Type} :
    ∀ (d : List (String × α)) (a : String) (v : α),
    dictGet? d a = some v → a ∈ keysFinset d
  | [], _, _, h => by simp [dictGet?] at h
  | (k, w) :: rest, a, v, h => by
      rw [dictGet?_cons] at h
      by_cases hk : k = a
      · simp [keysFinset, hk]
      · rw [if_neg hk] at h
        have := dictGet?_some_mem_keys rest a v h
        simp only [keysFinset, List.map_cons, List.toFinset_cons,
          Finset.mem_insert]
        exact Or.inr (by simpa [keysFinset] using this)

theorem aggregate_flag_iff (a b : Nat) :
    ((if 0 < b then (a == b) else false) = true) ↔ (a = b ∧ 0 < b) := by
  by_cases h : 0 < b <;> simp [h]

/-- **C3 counterexample**: in `RayEnv`, an agent seen earlier in the episode
but absent from the current step's dicts is dropped from the tracked total,
so `terminateds["__all__"]` can be `True` while the number of agents marked
done (1, agent `"x"`) differs from the number of agents seen this episode
(2, agents `"x"` and `"y"`).  Trace: reset observes `{x, y}`; step 1 reports
both agents not done; step 2 reports only `x`, terminated. -/
theorem rayenv_all_flag_counterexample :
    (let s1 := (rayEnvStep (rayEnvReset (O := Unit) [("x", ()), ("y", ())])
        [("x", false), ("y", false)] [("x", false), ("y", false)]).1
     let r2 := rayEnvStep s1 [("x", true)] [("x", false)]
     let seen := seenAgents (O := Unit) [("x", ()), ("y", ())]
        [⟨[("x", ()), ("y", ())], [("x", false), ("y", false)],
            [("x", false), ("y", false)]⟩,
         ⟨[("x", ())], [("x", true)], [("x", false)]⟩]
     dictGet? r2.2.1 "__all__" = some true ∧
       ¬(((r2.1.terminated ∪ r2.1.truncated).card = seen.card) ∧
         0 < seen.card)) := by
  decide

/-- **C3 (amended)**: after each step, `terminateds["__all__"]` is true iff
the number of agents marked terminated-or-truncated so far equals the size
of the adapter's *tracked* set `current ∪ terminated ∪ truncated` and that
size is positive, and `truncateds["__all__"]` is true iff the number of
truncated agents equals that size and it is positive; in the vectorized
adapter either aggregate marks the environment for auto-reset.  (The tracked
set accumulates observed-or-flagged agents for the `RayVecEnv` wrappers, but
`RayEnv` recomputes its active set from the current step's dicts alone, so
its total can undercount agents seen earlier in the episode.) -/
theorem all_flags_amended :
    (∀ (O : Type) (s : WrapperState) (observations : List (String × O))
        (terminateds truncateds : List (String × Bool)),
      (dictGet? (rayVecEnvStepPerEnv s observations terminateds truncateds).2.1
          "__all__" = some true ↔
        (((rayVecEnvStepPerEnv s observations terminateds truncateds).1.terminated ∪
          (rayVecEnvStepPerEnv s observations terminateds truncateds).1.truncated).card =
          ((rayVecEnvStepPerEnv s observations terminateds truncateds).1.current ∪
           (rayVecEnvStepPerEnv s observations terminateds truncateds).1.terminated ∪
           (rayVecEnvStepPerEnv s observations terminateds truncateds).1.truncated).card ∧
         0 < ((rayVecEnvStepPerEnv s observations terminateds truncateds).1.current ∪
           (rayVecEnvStepPerEnv s observations terminateds truncateds).1.terminated ∪
           (rayVecEnvStepPerEnv s observations terminateds truncateds).1.truncated).card)) ∧
      (dictGet? (rayVecEnvStepPerEnv s observations terminateds truncateds).2.2
          "__all__" = some true ↔
        ((rayVecEnvStepPerEnv s observations terminateds truncateds).1.truncated.card =
          ((rayVecEnvStepPerEnv s observations terminateds truncateds).1.current ∪
           (rayVecEnvStepPerEnv s observations terminateds truncateds).1.terminated ∪
           (rayVecEnvStepPerEnv s observations terminateds truncateds).1.truncated).card ∧
         0 < ((rayVecEnvStepPerEnv s observations terminateds truncateds).1.current ∪
           (rayVecEnvStepPerEnv s observations terminateds truncateds).1.terminated ∪
           (rayVecEnvStepPerEnv s observations terminateds truncateds).1.truncated).card)) ∧
      ((rayVecEnvStepPerEnv s observations terminateds truncateds).1.resetOnNextStep = true ↔
        (dictGet? (rayVecEnvStepPerEnv s observations terminateds truncateds).2.1
            "__all__" = some true ∨
         dictGet? (rayVecEnvStepPerEnv s observations terminateds truncateds).2.2
            "__all__" = some true))) ∧
    (∀ (s : RayEnvState) (terminateds truncateds : List (String × Bool)),
      (dictGet? (rayEnvStep s terminateds truncateds).2.1 "__all__" =
          some true ↔
        (((rayEnvStep s terminateds truncateds).1.terminated ∪
          (rayEnvStep s terminateds truncateds).1.truncated).card =
          ((rayEnvStep s terminateds truncateds).1.current ∪
           (rayEnvStep s terminateds truncateds).1.terminated ∪
           (rayEnvStep s terminateds truncateds).1.truncated).card ∧
         0 < ((rayEnvStep s terminateds truncateds).1.current ∪
           (rayEnvStep s terminateds truncateds).1.terminated ∪
           (rayEnvStep s terminateds truncateds).1.truncated).card)) ∧
      (dictGet? (rayEnvStep s terminateds truncateds).2.2 "__all__" =
          some true ↔
        ((rayEnvStep s terminateds truncateds).1.truncated.card =
          ((rayEnvStep s terminateds truncateds).1.current ∪
           (rayEnvStep s terminateds truncateds).1.terminated ∪
           (rayEnvStep s terminateds truncateds).1.truncated).card ∧
         0 < ((rayEnvStep s terminateds truncateds).1.current ∪
           (rayEnvStep s terminateds truncateds).1.terminated ∪
           (rayEnvStep s terminateds truncateds).1.truncated).card))) := by
  constructor
  · intro O s observations terminateds truncateds
    simp only [rayVecEnvStepPerEnv]
    set s' := wrapperStep s observations terminateds truncateds with hs'
    set numTotal := (s'.current ∪ s'.terminated ∪ s'.truncated).card with hT
    set numDone := (s'.terminated ∪ s'.truncated).card with hD
    set termAll : Bool := if 0 < numTotal then numDone == numTotal else false
      with hTA
    set truncAll : Bool :=
      if 0 < numTotal then s'.truncated.card == numTotal else false with hUA
    have hsets : (if termAll || truncAll then
        { s' with resetOnNextStep := true } else s').current = s'.current ∧
        (if termAll || truncAll then
          { s' with resetOnNextStep := true } else s').terminated = s'.terminated ∧
        (if termAll || truncAll then
          { s' with resetOnNextStep := true } else s').truncated = s'.truncated := by
      by_cases hc : (termAll || truncAll) = true <;> simp [hc]
    rw [dictGet?_pyDictInsert_self, dictGet?_pyDictInsert_self,
      hsets.1, hsets.2.1, hsets.2.2]
    refine ⟨?_, ?_, ?_⟩
    · simp only [Option.some.injEq]
      rw [hTA]
      exact aggregate_flag_iff numDone numTotal
    · simp only [Option.some.injEq]
      rw [hUA]
      exact aggregate_flag_iff s'.truncated.card numTotal
    · have hflag : (if termAll || truncAll then
          { s' with resetOnNextStep := true } else s').resetOnNextStep =
          (termAll || truncAll) := by
        by_cases hc : (termAll || truncAll) = true
        · simp [hc]
        · have hs'flag : s'.resetOnNextStep = false := by
            rw [hs', wrapperStep]
            by_cases hr : s.resetOnNextStep
            · simp [hr, wrapperResetState]
            · simp only [hr]
              simp [Bool.eq_false_iff.mpr, hr]
          simp [hc, hs'flag]
      rw [hflag]
      simp [Bool.or_eq_true]
  · intro s terminateds truncateds
    simp only [rayEnvStep]
    rw [dictGet?_pyDictInsert_self, dictGet?_pyDictInsert_self]
    constructor
    · simp only [Option.some.injEq]
      exact aggregate_flag_iff _ _
    · simp only [Option.some.injEq]
      exact aggregate_flag_iff _ _

/-- **C4 counterexample**: `RayEnv.step` does *not* compute the new active
set as `(previous active ∪ observed) − (terminated ∪ truncated)`: it
recomputes it from the current step's dicts alone.  With previous active
`{x, y}` and step 2 reporting only `x` (terminated) while observing `{x}`,
the claimed law gives `{y}` but the code yields `∅`. -/
theorem rayenv_active_set_counterexample :
    (let s1 := (rayEnvStep (rayEnvReset (O := Unit) [("x", ()), ("y", ())])
        [("x", false), ("y", false)] [("x", false), ("y", false)]).1
     let s2 := (rayEnvStep s1 [("x", true)] [("x", false)]).1
     s2.current ≠
       (s1.current ∪ keysFinset (α := Unit) [("x", ())]) \
         (s2.terminated ∪ s2.truncated)) := by
  decide

/-- **C4 (amended)**: on every non-auto-reset step, each `RayVecEnv`
per-environment wrapper updates its liveness sets exactly as the claim
states (with "observed" the keys of the observation dict): the done sets
grow by the agents flagged true and the active set becomes
`(previous active ∪ observed) − (terminated ∪ truncated)`.  `RayEnv` grows
its done sets the same way, but recomputes its active set as the agents
present in the current step's `terminateds`/`truncateds` dicts that are not
flagged done, discarding previously active agents. -/
theorem liveness_update_amended :
    (∀ (O : Type) (s : WrapperState) (observations : List (String × O))
        (terminateds truncateds : List (String × Bool)),
      s.resetOnNextStep = false →
      (wrapperStep s observations terminateds truncateds).terminated =
        s.terminated ∪ trueKeys terminateds ∧
      (wrapperStep s observations terminateds truncateds).truncated =
        s.truncated ∪ trueKeys truncateds ∧
      (wrapperStep s observations terminateds truncateds).current =
        (s.current ∪ keysFinset observations) \
          ((wrapperStep s observations terminateds truncateds).terminated ∪
           (wrapperStep s observations terminateds truncateds).truncated)) ∧
    (∀ (s : RayEnvState) (terminateds truncateds : List (String × Bool)),
      (rayEnvStep s terminateds truncateds).1.terminated =
        s.terminated ∪ trueKeys terminateds ∧
      (rayEnvStep s terminateds truncateds).1.truncated =
        s.truncated ∪ trueKeys truncateds ∧
      (rayEnvStep s terminateds truncateds).1.current =
        (keysFinset terminateds ∪ keysFinset truncateds).filter (fun a =>
          ¬(dictGet? terminateds a = some true ∨
            dictGet? truncateds a = some true))) := by
  constructor
  · intro O s observations terminateds truncateds hflag
    rw [wrapperStep, if_neg (by simp [hflag])]
    exact ⟨rfl, rfl, rfl⟩
  · intro s terminateds truncateds
    refine ⟨?_, ?_, rfl⟩
    · show s.terminated ∪ (keysFinset terminateds ∪ keysFinset truncateds).filter
          (fun a => dictGet? terminateds a = some true) =
        s.terminated ∪ trueKeys terminateds
      congr 1
      ext a
      simp only [Finset.mem_filter, Finset.mem_union, trueKeys]
      constructor
      · rintro ⟨_, hv⟩
        exact ⟨dictGet?_some_mem_keys terminateds a true hv, hv⟩
      · rintro ⟨hm, hv⟩
        exact ⟨Or.inl hm, hv⟩
    · show s.truncated ∪ (keysFinset terminateds ∪ keysFinset truncateds).filter
          (fun a => dictGet? truncateds a = some true) =
        s.truncated ∪ trueKeys truncateds
      congr 1
      ext a
      simp only [Finset.mem_filter, Finset.mem_union, trueKeys]
      constructor
      · rintro ⟨_, hv⟩
        exact ⟨dictGet?_some_mem_keys truncateds a true hv, hv⟩
      · rintro ⟨hm, hv⟩
        exact ⟨Or.inr hm, hv⟩

/-! ### Membership and interval facts about flat ids -/

theorem envOffset_succ (ids : List (List String)) (e : Nat)
    (he : e < ids.length) :
    envOffset ids (e + 1) = envOffset ids e + (ids.get ⟨e, he⟩).length := by
  have hm : e < (ids.map List.length).length := by simpa using he
  rw [envOffset, envOffset, List.map_take, List.map_take,
    List.sum_take_succ _ e hm]
  congr 1
  simp

theorem envOffset_add_le : ∀ (ids : List (List String)) (e : Nat)
    (he : e < ids.length),
    envOffset ids e + (ids.get ⟨e, he⟩).length ≤ num_ids ids
  | [], e, he => absurd he (by simp)
  | env :: rest, 0, _ => by
      simp [envOffset, num_ids]
  | env :: rest, e + 1, he => by
      have hlt : e < rest.length := by simpa using Nat.lt_of_succ_lt_succ he
      have := envOffset_add_le rest e hlt
      have hoff : envOffset (env :: rest) (e + 1) =
          env.length + envOffset rest e := by simp [envOffset]
      have hnum : num_ids (env :: rest) = env.length + num_ids rest := by
        simp [num_ids]
      rw [hoff, hnum, List.get_cons_succ]
      omega

theorem buildEnvMap_mem_some : ∀ (env : List String) (a : String),
    a ∈ env → ∀ (u0 : Nat) (d : List (String × Nat)),
    ∃ v, dictGet? (buildEnvMap env u0 d) a = some v
  | [], a, ha, _, _ => absurd ha (by simp)
  | b :: rest, a, ha, u0, d => by
      by_cases har : a ∈ rest
      · exact buildEnvMap_mem_some rest a har (u0 + 1) (pyDictInsert d b u0)
      · have hab : a = b := by
          rcases List.mem_cons.mp ha with h | h
          · exact h
          · exact absurd h har
        subst hab
        refine ⟨u0, ?_⟩
        rw [buildEnvMap, buildEnvMap_get_notmem rest (u0 + 1) _ a har,
          dictGet?_pyDictInsert_self]

theorem get_flattened_id_mem (ids : List (List String)) (e : Nat)
    (he : e < ids.length) (a : String) (ha : a ∈ ids.get ⟨e, he⟩) :
    ∃ uid, get_flattened_id ids e a = .ok uid ∧
      envOffset ids e ≤ uid ∧
      uid < envOffset ids e + (ids.get ⟨e, he⟩).length := by
  obtain ⟨v, hv⟩ := buildEnvMap_mem_some (ids.get ⟨e, he⟩) a ha
    (0 + envOffset ids e) []
  refine ⟨v, ?_, ?_⟩
  · rw [get_flattened_id, id_map, buildIdMap_get ids 0 e he, orRaise_some,
      except_bind_ok, hv, orRaise_some]
  · rcases buildEnvMap_get_bound _ _ _ _ _ hv with hrange | habs
    · constructor <;> omega
    · simp at habs

theorem get_flattened_id_mem_lt_num_ids (ids : List (List String)) (e : Nat)
    (he : e < ids.length) (a : String) (ha : a ∈ ids.get ⟨e, he⟩)
    (uid : Nat) (h : get_flattened_id ids e a = .ok uid) :
    uid < num_ids ids := by
  obtain ⟨uid', h', _, hub⟩ := get_flattened_id_mem ids e he a ha
  rw [h] at h'
  injection h' with h2
  subst h2
  exact Nat.lt_of_lt_of_le hub (envOffset_add_le ids e he)

/-! ### The dones / mixed-completion computation (C6) -/

theorem pyListSet_lt {α : Type} (l : List α) (i : Nat) (v : α)
    (h : i < l.length) : pyListSet l i v = .ok (l.set i v) := by
  unfold pyListSet
  rw [if_pos h]

theorem sb3DonesEnv_spec (ids : List (List String)) (e : Nat)
    (he : e < ids.length) (term trunc : List (String × Bool)) :
    ∀ (agents : List String), (∀ a ∈ agents, a ∈ ids.get ⟨e, he⟩) →
    ∀ (dones : List Bool), dones.length = num_ids ids → ∀ (a0 l0 : Bool),
    ∃ dones', sb3DonesEnv ids e term trunc agents dones a0 l0 =
        .ok (dones', a0 || agents.any (doneFlagB term trunc),
          l0 && agents.all (doneFlagB term trunc)) ∧
      dones'.length = num_ids ids
  | [], _, dones, hdl, a0, l0 => ⟨dones, by simp [sb3DonesEnv], hdl⟩
  | a :: rest, hsub, dones, hdl, a0, l0 => by
      obtain ⟨uid, huid, _, hub⟩ :=
        get_flattened_id_mem ids e he a (hsub a (List.mem_cons_self _ _))
      have hlt : uid < dones.length := by
        rw [hdl]
        exact Nat.lt_of_lt_of_le hub (envOffset_add_le ids e he)
      obtain ⟨dones', hrec, hdl'⟩ := sb3DonesEnv_spec ids e he term trunc rest
        (fun b hb => hsub b (List.mem_cons_of_mem _ hb))
        (dones.set uid (doneFlagB term trunc a))
        (by simpa using hdl)
        (a0 || doneFlagB term trunc a) (l0 && doneFlagB term trunc a)
      refine ⟨dones', ?_, hdl'⟩
      rw [sb3DonesEnv, huid, except_bind_ok]
      dsimp only
      rw [pyListSet_lt dones uid _ hlt, except_bind_ok, hrec]
      simp [List.any_cons, List.all_cons, Bool.or_assoc, Bool.and_assoc]

theorem sb3DonesLoop_raises (ids : List (List String))
    (terminateds truncateds : List (List (String × Bool))) :
    ∀ (envs : List (List String)) (e0 k : Nat) (hk : k < envs.length)
    (dones : List Bool),
    (∀ j (hj : j < envs.length), ids.get? (e0 + j) = some (envs.get ⟨j, hj⟩)) →
    dones.length = num_ids ids →
    (∀ j, j < envs.length → ∃ tD uD, terminateds.get? (e0 + j) = some tD ∧
      truncateds.get? (e0 + j) = some uD) →
    (∀ j (hj : j < k) (tD uD : List (String × Bool)),
      terminateds.get? (e0 + j) = some tD →
      truncateds.get? (e0 + j) = some uD →
      (∀ a ∈ envs.get ⟨j, by omega⟩, doneFlagB tD uD a = true) ∨
      (∀ a ∈ envs.get ⟨j, by omega⟩, doneFlagB tD uD a = false)) →
    (∀ (tD uD : List (String × Bool)),
      terminateds.get? (e0 + k) = some tD →
      truncateds.get? (e0 + k) = some uD →
      (∃ a ∈ envs.get ⟨k, hk⟩, doneFlagB tD uD a = true) ∧
      (∃ b ∈ envs.get ⟨k, hk⟩, doneFlagB tD uD b = false)) →
    sb3DonesLoop ids terminateds truncateds e0 envs dones =
      .error (.environmentException (e0 + k))
  | [], _, k, hk, _, _, _, _, _, _ => absurd hk (by simp)
  | agents :: rest, e0, k, hk, dones, halign, hdl, hdicts, huni, hmix => by
      obtain ⟨tD, uD, htD, huD⟩ := hdicts 0 (by simp)
      have he0 : e0 < ids.length ∧ ids.get ⟨e0, by
          obtain ⟨h, _⟩ := List.get?_eq_some.mp
            (by simpa using halign 0 (by simp))
          exact h⟩ = agents := by
        obtain ⟨h, hh⟩ := List.get?_eq_some.mp
          (by simpa using halign 0 (by simp))
        exact ⟨h, hh⟩
      obtain ⟨he0lt, he0eq⟩ := he0
      rw [sb3DonesLoop]
      rw [show terminateds.get? e0 = some tD from by simpa using htD,
        orRaise_some, except_bind_ok,
        show truncateds.get? e0 = some uD from by simpa using huD,
        orRaise_some, except_bind_ok]
      obtain ⟨dones', henv, hdl'⟩ := sb3DonesEnv_spec ids e0 he0lt tD uD
        agents (fun a ha => by rw [he0eq]; exact ha) dones hdl false true
      rw [henv, except_bind_ok]
      match k, hk with
      | 0, hk =>
          obtain ⟨⟨a, hamem, haf⟩, ⟨b, hbmem, hbf⟩⟩ :=
            hmix tD uD (by simpa using htD) (by simpa using huD)
          have hany : agents.any (doneFlagB tD uD) = true :=
            List.any_eq_true.mpr ⟨a, by simpa using hamem, by simp [haf]⟩
          have hall : agents.all (doneFlagB tD uD) = false := by
            cases hcase : agents.all (doneFlagB tD uD) with
            | false => rfl
            | true =>
                have := List.all_eq_true.mp hcase b (by simpa using hbmem)
                rw [hbf] at this
                exact absurd this (by simp)
          rw [hany, hall]
          simp
      | k + 1, hk =>
          have huni0 := huni 0 (by omega) tD uD (by simpa using htD)
            (by simpa using huD)
          have hpass : ((false || agents.any (doneFlagB tD uD)) &&
              !(true && agents.all (doneFlagB tD uD))) = false := by
            rcases huni0 with hall | hnone
            · have hallb : agents.all (doneFlagB tD uD) = true :=
                List.all_eq_true.mpr (fun a ha => by
                  simpa using hall a (by simpa using ha))
              rw [hallb]
              simp
            · have hanyb : agents.any (doneFlagB tD uD) = false := by
                cases hcase : agents.any (doneFlagB tD uD) with
                | false => rfl
                | true =>
                    obtain ⟨a, hamem, haf⟩ := List.any_eq_true.mp hcase
                    have := hnone a (by simpa using hamem)
                    rw [this] at haf
                    exact absurd haf (by simp)
              rw [hanyb]
              simp
          rw [hpass]
          simp only [Bool.false_eq_true, if_false]
          have := sb3DonesLoop_raises ids terminateds truncateds rest
            (e0 + 1) k (by simpa using Nat.lt_of_succ_lt_succ hk) dones'
            (fun j hj => by
              have := halign (j + 1) (by simpa using Nat.succ_lt_succ hj)
              rw [show e0 + (j + 1) = e0 + 1 + j from by omega] at this
              simpa using this)
            hdl'
            (fun j hj => by
              obtain ⟨tD', uD', h1, h2⟩ := hdicts (j + 1)
                (by simpa using Nat.succ_lt_succ hj)
              rw [show e0 + (j + 1) = e0 + 1 + j from by omega] at h1 h2
              exact ⟨tD', uD', h1, h2⟩)
            (fun j hj tD' uD' h1 h2 => by
              have := huni (j + 1) (by omega) tD' uD'
                (by rw [show e0 + (j + 1) = e0 + 1 + j from by omega]
                    exact h1)
                (by rw [show e0 + (j + 1) = e0 + 1 + j from by omega]
                    exact h2)
              simpa using this)
            (fun tD' uD' h1 h2 => by
              have := hmix tD' uD'
                (by rw [show e0 + (k + 1) = e0 + 1 + k from by omega]
                    exact h1)
                (by rw [show e0 + (k + 1) = e0 + 1 + k from by omega]
                    exact h2)
              simpa using this)
          rw [this]
          congr 2
          omega

theorem gymMixedCheckEnv_spec (ids : List (List String)) (e : Nat)
    (he : e < ids.length) (term trunc : List (String × Bool)) :
    ∀ (agents : List String), (∀ a ∈ agents, a ∈ ids.get ⟨e, he⟩) →
    (∀ a ∈ agents, (dictGet? term a).isSome ∧ (dictGet? trunc a).isSome) →
    ∀ (a0 l0 : Bool),
    gymMixedCheckEnv ids e term trunc agents a0 l0 =
      .ok (a0 || agents.any (doneFlagB term trunc),
        l0 && agents.all (doneFlagB term trunc))
  | [], _, _, a0, l0 => by simp [gymMixedCheckEnv]
  | a :: rest, hsub, hcov, a0, l0 => by
      obtain ⟨uid, huid, _, _⟩ :=
        get_flattened_id_mem ids e he a (hsub a (List.mem_cons_self _ _))
      obtain ⟨htv, huv⟩ := hcov a (List.mem_cons_self _ _)
      obtain ⟨tv, htv'⟩ := Option.isSome_iff_exists.mp htv
      obtain ⟨uv, huv'⟩ := Option.isSome_iff_exists.mp huv
      have hflag : doneFlagB term trunc a = (tv || uv) := by
        rw [doneFlagB, htv', huv']
        rfl
      rw [gymMixedCheckEnv, huid, except_bind_ok, htv', orRaise_some,
        except_bind_ok, huv', orRaise_some, except_bind_ok,
        gymMixedCheckEnv_spec ids e he term trunc rest
          (fun b hb => hsub b (List.mem_cons_of_mem _ hb))
          (fun b hb => hcov b (List.mem_cons_of_mem _ hb))
          (a0 || (tv || uv)) (l0 && (tv || uv))]
      simp [List.any_cons, List.all_cons, hflag, Bool.or_assoc, Bool.and_assoc]

theorem gymMixedCheckLoop_raises (ids : List (List String))
    (terminateds truncateds : List (List (String × Bool))) :
    ∀ (envs : List (List String)) (e0 k : Nat) (hk : k < envs.length),
    (∀ j (hj : j < envs.length), ids.get? (e0 + j) = some (envs.get ⟨j, hj⟩)) →
    (∀ j, j < envs.length → ∃ tD uD, terminateds.get? (e0 + j) = some tD ∧
      truncateds.get? (e0 + j) = some uD) →
    (∀ j (hj : j < envs.length) (tD uD : List (String × Bool)),
      terminateds.get? (e0 + j) = some tD →
      truncateds.get? (e0 + j) = some uD →
      ∀ a ∈ envs.get ⟨j, hj⟩,
        (dictGet? tD a).isSome ∧ (dictGet? uD a).isSome) →
    (∀ j (hj : j < k) (tD uD : List (String × Bool)),
      terminateds.get? (e0 + j) = some tD →
      truncateds.get? (e0 + j) = some uD →
      (∀ a ∈ envs.get ⟨j, by omega⟩, doneFlagB tD uD a = true) ∨
      (∀ a ∈ envs.get ⟨j, by omega⟩, doneFlagB tD uD a = false)) →
    (∀ (tD uD : List (String × Bool)),
      terminateds.get? (e0 + k) = some tD →
      truncateds.get? (e0 + k) = some uD →
      (∃ a ∈ envs.get ⟨k, hk⟩, doneFlagB tD uD a = true) ∧
      (∃ b ∈ envs.get ⟨k, hk⟩, doneFlagB tD uD b = false)) →
    gymMixedCheckLoop ids terminateds truncateds e0 envs =
      .error (.environmentException (e0 + k))
  | [], _, k, hk, _, _, _, _, _ => absurd hk (by simp)
  | agents :: rest, e0, k, hk, halign, hdicts, hcov, huni, hmix => by
      obtain ⟨tD, uD, htD, huD⟩ := hdicts 0 (by simp)
      obtain ⟨he0lt, he0eq⟩ : ∃ h : e0 < ids.length,
          ids.get ⟨e0, h⟩ = agents := by
        obtain ⟨h, hh⟩ := List.get?_eq_some.mp
          (by simpa using halign 0 (by simp))
        exact ⟨h, hh⟩
      rw [gymMixedCheckLoop,
        show terminateds.get? e0 = some tD from by simpa using htD,
        orRaise_some, except_bind_ok,
        show truncateds.get? e0 = some uD from by simpa using huD,
        orRaise_some, except_bind_ok,
        gymMixedCheckEnv_spec ids e0 he0lt tD uD agents
          (fun a ha => by rw [he0eq]; exact ha)
          (fun a ha => hcov 0 (by simp) tD uD (by simpa using htD)
            (by simpa using huD) a (by simpa using ha))
          false true, except_bind_ok]
      match k, hk with
      | 0, hk =>
          obtain ⟨⟨a, hamem, haf⟩, ⟨b, hbmem, hbf⟩⟩ :=
            hmix tD uD (by simpa using htD) (by simpa using huD)
          have hany : agents.any (doneFlagB tD uD) = true :=
            List.any_eq_true.mpr ⟨a, by simpa using hamem, by simp [haf]⟩
          have hall : agents.all (doneFlagB tD uD) = false := by
            cases hcase : agents.all (doneFlagB tD uD) with
            | false => rfl
            | true =>
                have := List.all_eq_true.mp hcase b (by simpa using hbmem)
                rw [hbf] at this
                exact absurd this (by simp)
          rw [hany, hall]
          simp
      | k + 1, hk =>
          have huni0 := huni 0 (by omega) tD uD (by simpa using htD)
            (by simpa using huD)
          have hpass : ((false || agents.any (doneFlagB tD uD)) &&
              !(true && agents.all (doneFlagB tD uD))) = false := by
            rcases huni0 with hall | hnone
            · have hallb : agents.all (doneFlagB tD uD) = true :=
                List.all_eq_true.mpr (fun a ha => by
                  simpa using hall a (by simpa using ha))
              rw [hallb]
              simp
            · have hanyb : agents.any (doneFlagB tD uD) = false := by
                cases hcase : agents.any (doneFlagB tD uD) with
                | false => rfl
                | true =>
                    obtain ⟨a, hamem, haf⟩ := List.any_eq_true.mp hcase
                    have := hnone a (by simpa using hamem)
                    rw [this] at haf
                    exact absurd haf (by simp)
              rw [hanyb]
              simp
          rw [hpass]
          simp only [Bool.false_eq_true, if_false]
          have := gymMixedCheckLoop_raises ids terminateds truncateds rest
            (e0 + 1) k (by simpa using Nat.lt_of_succ_lt_succ hk)
            (fun j hj => by
              have := halign (j + 1) (by simpa using Nat.succ_lt_succ hj)
              rw [show e0 + (j + 1) = e0 + 1 + j from by omega] at this
              simpa using this)
            (fun j hj => by
              obtain ⟨tD', uD', h1, h2⟩ := hdicts (j + 1)
                (by simpa using Nat.succ_lt_succ hj)
              rw [show e0 + (j + 1) = e0 + 1 + j from by omega] at h1 h2
              exact ⟨tD', uD', h1, h2⟩)
            (fun j hj tD' uD' h1 h2 => by
              have := hcov (j + 1) (by simpa using Nat.succ_lt_succ hj)
                tD' uD'
                (by rw [show e0 + (j + 1) = e0 + 1 + j from by omega]
                    exact h1)
                (by rw [show e0 + (j + 1) = e0 + 1 + j from by omega]
                    exact h2)
              intro a ha
              exact this a (by simpa using ha))
            (fun j hj tD' uD' h1 h2 => by
              have := huni (j + 1) (by omega) tD' uD'
                (by rw [show e0 + (j + 1) = e0 + 1 + j from by omega]
                    exact h1)
                (by rw [show e0 + (j + 1) = e0 + 1 + j from by omega]
                    exact h2)
              simpa using this)
            (fun tD' uD' h1 h2 => by
              have := hmix tD' uD'
                (by rw [show e0 + (k + 1) = e0 + 1 + k from by omega]
                    exact h1)
                (by rw [show e0 + (k + 1) = e0 + 1 + k from by omega]
                    exact h2)
              simpa using this)
          rw [this]
          congr 2
          omega

/-- **C6**: if on any step some agent of a multi-agent environment is
terminated-or-truncated while a sibling agent in the same `env_id` is not
(earlier environments being uniformly done or uniformly not done, so the
mixed one is the first offender), both the SB3 `VecEnv.step_wait` and
`GymVectorEnv.step` raise `EnvironmentException` naming that environment
instead of returning a result — provided the stages that run before the
check (the reward/observation/info flattening) succeed, which they do for
any well-formed transport response. -/
theorem mixed_completion_raises :
    (∀ (T R I : Type) (ids : List (List String)) (resetInfos : List I)
        (observations : List (List (String × T)))
        (rewards : List (List (String × R)))
        (terminateds truncateds : List (List (String × Bool)))
        (nested_infos : List (List (String × I)))
        (initial_obs : List (Nat × List (String × T)))
        (initial_infos : List (Nat × List (String × I)))
        (arrR : List (Option R)) (arrO : List (Option T))
        (infos0 : List (Sb3Info T I)) (k : Nat) (hk : k < ids.length)
        (termD truncD : List (String × Bool)),
      flattenOpt ids rewards = .ok arrR →
      flattenOpt ids observations = .ok arrO →
      sb3BuildInfos (T := T) ids nested_infos = .ok infos0 →
      (∀ j, j < ids.length → ∃ tD uD, terminateds.get? j = some tD ∧
        truncateds.get? j = some uD) →
      terminateds.get? k = some termD →
      truncateds.get? k = some truncD →
      (∀ j (hj : j < k) (tD uD : List (String × Bool)),
        terminateds.get? j = some tD → truncateds.get? j = some uD →
        (∀ a ∈ ids.get ⟨j, by omega⟩, doneFlagB tD uD a = true) ∨
        (∀ a ∈ ids.get ⟨j, by omega⟩, doneFlagB tD uD a = false)) →
      (∃ a ∈ ids.get ⟨k, hk⟩, doneFlagB termD truncD a = true) →
      (∃ b ∈ ids.get ⟨k, hk⟩, doneFlagB termD truncD b = false) →
      sb3StepWait ids resetInfos observations rewards terminateds truncateds
        nested_infos initial_obs initial_infos =
        .error (.environmentException k)) ∧
    (∀ (T R I : Type) (ids : List (List String))
        (observations : List (List (String × T)))
        (rewards : List (List (String × R)))
        (terminateds truncateds : List (List (String × Bool)))
        (nested_infos : List (List (String × I)))
        (initial_obs : List (Nat × List (String × T)))
        (initial_infos : List (Nat × List (String × I)))
        (arrR : List (Option R)) (arrT arrU : List (Option Bool))
        (k : Nat) (hk : k < ids.length)
        (termD truncD : List (String × Bool)),
      flattenOpt ids rewards = .ok arrR →
      flattenOpt ids terminateds = .ok arrT →
      flattenOpt ids truncateds = .ok arrU →
      (∀ j, j < ids.length → ∃ tD uD, terminateds.get? j = some tD ∧
        truncateds.get? j = some uD) →
      (∀ j (hj : j < ids.length) (tD uD : List (String × Bool)),
        terminateds.get? j = some tD → truncateds.get? j = some uD →
        ∀ a ∈ ids.get ⟨j, hj⟩,
          (dictGet? tD a).isSome ∧ (dictGet? uD a).isSome) →
      terminateds.get? k = some termD →
      truncateds.get? k = some truncD →
      (∀ j (hj : j < k) (tD uD : List (String × Bool)),
        terminateds.get? j = some tD → truncateds.get? j = some uD →
        (∀ a ∈ ids.get ⟨j, by omega⟩, doneFlagB tD uD a = true) ∨
        (∀ a ∈ ids.get ⟨j, by omega⟩, doneFlagB tD uD a = false)) →
      (∃ a ∈ ids.get ⟨k, hk⟩, doneFlagB termD truncD a = true) →
      (∃ b ∈ ids.get ⟨k, hk⟩, doneFlagB termD truncD b = false) →
      gymVectorStepProcess (T := T) ids observations rewards terminateds
        truncateds nested_infos initial_obs initial_infos =
        .error (.environmentException k)) := by
  constructor
  · intro T R I ids resetInfos observations rewards terminateds truncateds
      nested_infos initial_obs initial_infos arrR arrO infos0 k hk
      termD truncD hrew hobs hinf hdicts htD huD huni hex1 hex2
    have hraise := sb3DonesLoop_raises ids terminateds truncateds ids 0 k hk
      (List.replicate (num_ids ids) false)
      (fun j hj => by rw [Nat.zero_add]; exact List.get?_eq_get hj)
      (by simp)
      (fun j hj => by rw [Nat.zero_add]; exact hdicts j hj)
      (fun j hj tD uD h1 h2 => by
        rw [Nat.zero_add] at h1 h2
        exact huni j hj tD uD h1 h2)
      (fun tD uD h1 h2 => by
        rw [Nat.zero_add] at h1 h2
        rw [htD] at h1
        rw [huD] at h2
        injection h1 with h1
        injection h2 with h2
        subst h1; subst h2
        exact ⟨hex1, hex2⟩)
    rw [Nat.zero_add] at hraise
    rw [sb3StepWait, hrew, except_bind_ok, hobs, except_bind_ok, hinf,
      except_bind_ok, sb3ComputeDones, hraise, except_bind_error]
  · intro T R I ids observations rewards terminateds truncateds
      nested_infos initial_obs initial_infos arrR arrT arrU k hk
      termD truncD hrew htl hul hdicts hcov htD huD huni hex1 hex2
    have hraise := gymMixedCheckLoop_raises ids terminateds truncateds ids
      0 k hk
      (fun j hj => by rw [Nat.zero_add]; exact List.get?_eq_get hj)
      (fun j hj => by rw [Nat.zero_add]; exact hdicts j hj)
      (fun j hj tD uD h1 h2 => by
        rw [Nat.zero_add] at h1 h2
        exact hcov j hj tD uD h1 h2)
      (fun j hj tD uD h1 h2 => by
        rw [Nat.zero_add] at h1 h2
        exact huni j hj tD uD h1 h2)
      (fun tD uD h1 h2 => by
        rw [Nat.zero_add] at h1 h2
        rw [htD] at h1
        rw [huD] at h2
        injection h1 with h1
        injection h2 with h2
        subst h1; subst h2
        exact ⟨hex1, hex2⟩)
    rw [Nat.zero_add] at hraise
    rw [gymVectorStepProcess, hrew, except_bind_ok, htl, except_bind_ok,
      hul, except_bind_ok, hraise, except_bind_error]

/-- Witness for C6: two agents of the single environment, `"a"` terminated
and `"b"` not, make `step_wait` raise the mixed-completion exception. -/
theorem mixed_completion_raises_witness :
    sb3StepWait [["a", "b"]] [(0 : Nat), 0]
      [[("a", (5 : Nat)), ("b", 6)]] [[("a", (1 : Nat)), ("b", 2)]]
      [[("a", true), ("b", false)]] [[("a", false), ("b", false)]]
      [[("a", (0 : Nat)), ("b", 0)]] [] [] =
      .error (.environmentException 0) :=
  mixed_completion_raises.1 Nat Nat Nat [["a", "b"]] [0, 0]
    [[("a", 5), ("b", 6)]] [[("a", 1), ("b", 2)]]
    [[("a", true), ("b", false)]] [[("a", false), ("b", false)]]
    [[("a", 0), ("b", 0)]] [] []
    [some 1, some 2] [some 5, some 6]
    [⟨some 0, none, none⟩, ⟨some 0, none, none⟩] 0 (by decide)
    [("a", true), ("b", false)] [("a", false), ("b", false)]
    (by decide) (by decide) (by decide)
    (fun j hj => by
      have hj1 : j < 1 := hj
      have : j = 0 := by omega
      subst this
      exact ⟨[("a", true), ("b", false)], [("a", false), ("b", false)],
        rfl, rfl⟩)
    (by decide) (by decide)
    (fun j hj => absurd hj (Nat.not_lt_zero j))
    ⟨"a", by decide, by decide⟩ ⟨"b", by decide, by decide⟩

/-! ### SB3 self-reset substitution (C5) -/

theorem pyListSet_ok_length {α : Type} (l : List α) (i : Nat) (v : α)
    (m : List α) (h : pyListSet l i v = .ok m) : m.length = l.length := by
  unfold pyListSet at h
  by_cases hi : i < l.length
  · rw [if_pos hi] at h
    injection h with h
    subst h
    simp
  · rw [if_neg hi] at h
    exact Except.noConfusion h

theorem flattenEnvWrites_ok_length {α : Type} (ids : List (List String))
    (e : Nat) : ∀ (d : List (String × α)) (out m : List α),
    flattenEnvWrites ids e d out = .ok m → m.length = out.length
  | [], out, m, h => by
      rw [flattenEnvWrites] at h
      injection h with h
      subst h
      rfl
  | (a, v) :: rest, out, m, h => by
      rw [flattenEnvWrites] at h
      cases hw : flattenWrite ids out e a v with
      | error err =>
          rw [hw, except_bind_error] at h
          exact Except.noConfusion h
      | ok out1 =>
          rw [hw, except_bind_ok] at h
          have h1 := flattenEnvWrites_ok_length ids e rest out1 m h
          rw [flattenWrite] at hw
          cases hu : get_flattened_id ids e a with
          | error err =>
              rw [hu, except_bind_error] at hw
              exact Except.noConfusion hw
          | ok uid =>
              rw [hu, except_bind_ok] at hw
              rw [h1, pyListSet_ok_length out uid v out1 hw]

theorem flattenListLoop_ok_length {α : Type} (ids : List (List String)) :
    ∀ (nested : List (List (String × α))) (e : Nat) (out m : List α),
    flattenListLoop ids e nested out = .ok m → m.length = out.length
  | [], _, out, m, h => by
      rw [flattenListLoop] at h
      injection h with h
      subst h
      rfl
  | d :: rest, e, out, m, h => by
      rw [flattenListLoop] at h
      cases hw : flattenEnvWrites ids e d out with
      | error err =>
          rw [hw, except_bind_error] at h
          exact Except.noConfusion h
      | ok out1 =>
          rw [hw, except_bind_ok] at h
          rw [flattenListLoop_ok_length ids rest (e + 1) out1 m h,
            flattenEnvWrites_ok_length ids e d out out1 hw]

theorem flattenOpt_ok_length {X : Type} (ids : List (List String))
    (nested : List (List (String × X))) (out : List (Option X))
    (h : flattenOpt ids nested = .ok out) : out.length = num_ids ids := by
  rw [flattenOpt, flatten_list_of_dicts] at h
  have := flattenListLoop_ok_length ids _ 0 _ out h
  simpa using this

theorem sb3InfosLoopEnv_ok_length {T I : Type} (ids : List (List String))
    (e : Nat) : ∀ (d : List (String × I)) (infos m : List (Sb3Info T I)),
    sb3InfosLoopEnv ids e d infos = .ok m → m.length = infos.length
  | [], infos, m, h => by
      rw [sb3InfosLoopEnv] at h
      injection h with h
      subst h
      rfl
  | (a, info) :: rest, infos, m, h => by
      rw [sb3InfosLoopEnv] at h
      cases hu : get_flattened_id ids e a with
      | error err =>
          rw [hu, except_bind_error] at h
          exact Except.noConfusion h
      | ok uid =>
          rw [hu, except_bind_ok] at h
          cases hs : pyListSet infos uid
              (⟨some info, none, none⟩ : Sb3Info T I) with
          | error err =>
              rw [hs, except_bind_error] at h
              exact Except.noConfusion h
          | ok infos1 =>
              rw [hs, except_bind_ok] at h
              rw [sb3InfosLoopEnv_ok_length ids e rest infos1 m h,
                pyListSet_ok_length infos uid _ infos1 hs]

theorem sb3InfosLoop_ok_length {T I : Type} (ids : List (List String)) :
    ∀ (nested : List (List (String × I))) (e : Nat)
    (infos m : List (Sb3Info T I)),
    sb3InfosLoop ids e nested infos = .ok m → m.length = infos.length
  | [], _, infos, m, h => by
      rw [sb3InfosLoop] at h
      injection h with h
      subst h
      rfl
  | d :: rest, e, infos, m, h => by
      rw [sb3InfosLoop] at h
      cases hw : sb3InfosLoopEnv (T := T) ids e d infos with
      | error err =>
          rw [hw, except_bind_error] at h
          exact Except.noConfusion h
      | ok infos1 =>
          rw [hw, except_bind_ok] at h
          rw [sb3InfosLoop_ok_length ids rest (e + 1) infos1 m h,
            sb3InfosLoopEnv_ok_length ids e d infos infos1 hw]

theorem sb3BuildInfos_ok_length {T I : Type} (ids : List (List String))
    (nested_infos : List (List (String × I))) (m : List (Sb3Info T I))
    (h : sb3BuildInfos ids nested_infos = .ok m) :
    m.length = num_ids ids := by
  rw [sb3BuildInfos] at h
  have := sb3InfosLoop_ok_length ids nested_infos 0 _ m h
  simpa using this

theorem listSetGetq_ne {α : Type} : ∀ (l : List α) (i j : Nat) (v : α),
    i ≠ j → (l.set i v).get? j = l.get? j
  | [], _, _, _, _ => by simp
  | a :: rest, 0, 0, v, h => absurd rfl h
  | a :: rest, 0, j + 1, v, h => rfl
  | a :: rest, i + 1, 0, v, h => rfl
  | a :: rest, i + 1, j + 1, v, h =>
      listSetGetq_ne rest i j v (fun hh => h (by rw [hh]))

theorem listSetGetq_self {α : Type} : ∀ (l : List α) (i : Nat) (v : α),
    i < l.length → (l.set i v).get? i = some v
  | [], i, v, h => absurd h (by simp)
  | a :: rest, 0, v, _ => rfl
  | a :: rest, i + 1, v, h =>
      listSetGetq_self rest i v (by simpa using Nat.lt_of_succ_lt_succ h)

theorem natSum_take_le (l : List Nat) (n : Nat) : (l.take n).sum ≤ l.sum := by
  conv_rhs => rw [← List.take_append_drop n l]
  rw [List.sum_append]
  omega

theorem envOffset_mono (ids : List (List String)) {e1 e2 : Nat}
    (h : e1 ≤ e2) : envOffset ids e1 ≤ envOffset ids e2 := by
  rw [envOffset, envOffset, List.map_take, List.map_take]
  have h1 : ((ids.map List.length).take e2).take e1 =
      (ids.map List.length).take e1 := by
    rw [List.take_take, Nat.min_eq_left h]
  rw [← h1]
  exact natSum_take_le _ _

theorem envBlock_disjoint (ids : List (List String)) (e ep : Nat)
    (he : e < ids.length) (hep : ep < ids.length) (hne : ep ≠ e) (u : Nat)
    (h1 : envOffset ids e ≤ u)
    (h2 : u < envOffset ids e + (ids.get ⟨e, he⟩).length) :
    u < envOffset ids ep ∨
      envOffset ids ep + (ids.get ⟨ep, hep⟩).length ≤ u := by
  rcases Nat.lt_or_ge ep e with hlt | hge
  · right
    have hs := envOffset_succ ids ep hep
    have hm := envOffset_mono ids (show ep + 1 ≤ e from hlt)
    omega
  · left
    have hlt2 : e < ep := Nat.lt_of_le_of_ne hge (fun hh => hne hh.symm)
    have hs := envOffset_succ ids e he
    have hm := envOffset_mono ids (show e + 1 ≤ ep from hlt2)
    omega

theorem listDrop_cons_self {α : Type} : ∀ (l : List α) (n : Nat)
    (h : n < l.length), l.drop n = l.get ⟨n, h⟩ :: l.drop (n + 1)
  | a :: rest, 0, _ => rfl
  | a :: rest, n + 1, h =>
      listDrop_cons_self rest n (by simpa using Nat.lt_of_succ_lt_succ h)

theorem sb3InitialEnv_spec {T I : Type} (ids : List (List String)) (e : Nat)
    (he : e < ids.length) (hnd : (ids.get ⟨e, he⟩).Nodup)
    (observations : List (List (String × T)))
    (terminateds truncateds : List (List (String × Bool)))
    (obsEnv : List (String × T)) (termEnv truncEnv : List (String × Bool))
    (initEnv : List (String × T))
    (hobsE : observations.get? e = some obsEnv)
    (htermE : terminateds.get? e = some termEnv)
    (htruncE : truncateds.get? e = some truncEnv)
    (hcov : ∀ a ∈ ids.get ⟨e, he⟩,
      (dictGet? obsEnv a).isSome ∧ (dictGet? termEnv a).isSome ∧
      (dictGet? truncEnv a).isSome ∧ (dictGet? initEnv a).isSome) :
    ∀ (suffix : List String) (t : Nat),
    suffix = (ids.get ⟨e, he⟩).drop t →
    ∀ (infos : List (Sb3Info T I)) (arrObs : List (Option T)),
    infos.length = num_ids ids → arrObs.length = num_ids ids →
    ∃ infos' arrObs',
      sb3InitialEnv ids e observations terminateds truncateds initEnv
        suffix infos arrObs = .ok (infos', arrObs') ∧
      infos'.length = num_ids ids ∧ arrObs'.length = num_ids ids ∧
      (∀ u, u < envOffset ids e + t ∨
          envOffset ids e + (ids.get ⟨e, he⟩).length ≤ u →
        infos'.get? u = infos.get? u ∧ arrObs'.get? u = arrObs.get? u) ∧
      (∀ i (hi : i < (ids.get ⟨e, he⟩).length), t ≤ i →
        ∃ info tob tv uv iob,
          dictGet? obsEnv ((ids.get ⟨e, he⟩).get ⟨i, hi⟩) = some tob ∧
          dictGet? termEnv ((ids.get ⟨e, he⟩).get ⟨i, hi⟩) = some tv ∧
          dictGet? truncEnv ((ids.get ⟨e, he⟩).get ⟨i, hi⟩) = some uv ∧
          dictGet? initEnv ((ids.get ⟨e, he⟩).get ⟨i, hi⟩) = some iob ∧
          infos'.get? (envOffset ids e + i) = some info ∧
          info.terminal_observation = some tob ∧
          info.timelimit_truncated = some (uv && !tv) ∧
          arrObs'.get? (envOffset ids e + i) = some (some iob))
  | [], t, hsuf, infos, arrObs, hil, hal => by
      refine ⟨infos, arrObs, rfl, hil, hal, fun u _ => ⟨rfl, rfl⟩, ?_⟩
      intro i hi hti
      have hlen := congrArg List.length hsuf
      simp only [List.length_nil, List.length_drop] at hlen
      omega
  | a :: rest, t, hsuf, infos, arrObs, hil, hal => by
      have htlt : t < (ids.get ⟨e, he⟩).length := by
        by_contra hcon
        push_neg at hcon
        rw [List.drop_eq_nil_of_le hcon] at hsuf
        exact List.noConfusion hsuf
      have hcons := hsuf.trans (listDrop_cons_self _ t htlt)
      injection hcons with ha hrest
      subst ha
      have huid := get_flattened_id_env ids e he hnd t htlt
      have hmem : (ids.get ⟨e, he⟩).get ⟨t, htlt⟩ ∈ ids.get ⟨e, he⟩ :=
        List.get_mem _ t htlt
      obtain ⟨h1, h2, h3, h4⟩ := hcov _ hmem
      obtain ⟨tob, htob⟩ := Option.isSome_iff_exists.mp h1
      obtain ⟨tv, htv⟩ := Option.isSome_iff_exists.mp h2
      obtain ⟨uv, huv⟩ := Option.isSome_iff_exists.mp h3
      obtain ⟨iob, hiob⟩ := Option.isSome_iff_exists.mp h4
      have hoffb := envOffset_add_le ids e he
      have hltI : envOffset ids e + t < infos.length := by
        rw [hil]
        omega
      have hltA : envOffset ids e + t < arrObs.length := by
        rw [hal]
        omega
      have hold : infos.get? (envOffset ids e + t) =
          some (infos.get ⟨envOffset ids e + t, hltI⟩) :=
        List.get?_eq_get hltI
      obtain ⟨infos', arrObs', hrec, hil', hal', hframe, hchar⟩ :=
        sb3InitialEnv_spec ids e he hnd observations terminateds truncateds
          obsEnv termEnv truncEnv initEnv hobsE htermE htruncE hcov
          rest (t + 1) hrest
          (infos.set (envOffset ids e + t)
            ⟨(infos.get ⟨envOffset ids e + t, hltI⟩).base, some tob,
              some (uv && !tv)⟩)
          (arrObs.set (envOffset ids e + t) (some iob))
          (by simp [hil]) (by simp [hal])
      refine ⟨infos', arrObs', ?_, hil', hal', ?_, ?_⟩
      · simp only [sb3InitialEnv, huid, hobsE, htob, htruncE, huv, htermE,
          htv, hold, orRaise_some, except_bind_ok]
        rw [pyListSet_lt infos _ _ hltI, except_bind_ok]
        simp only [hiob, orRaise_some, except_bind_ok]
        rw [pyListSet_lt arrObs _ _ hltA, except_bind_ok]
        exact hrec
      · intro u hu
        have hne : u ≠ envOffset ids e + t := by omega
        have hfr := hframe u (by omega)
        refine ⟨?_, ?_⟩
        · rw [hfr.1, listSetGetq_ne _ _ _ _ (fun hh => hne hh.symm)]
        · rw [hfr.2, listSetGetq_ne _ _ _ _ (fun hh => hne hh.symm)]
      · intro i hi hti
        by_cases hit : i = t
        · subst hit
          refine ⟨⟨(infos.get ⟨envOffset ids e + i, hltI⟩).base, some tob,
            some (uv && !tv)⟩, tob, tv, uv, iob, htob, htv, huv, hiob,
            ?_, rfl, rfl, ?_⟩
          · have hfr := (hframe (envOffset ids e + i) (Or.inl (by omega))).1
            rw [hfr, listSetGetq_self _ _ _ hltI]
          · have hfr := (hframe (envOffset ids e + i) (Or.inl (by omega))).2
            rw [hfr, listSetGetq_self _ _ _ hltA]
        · exact hchar i hi (by omega)

theorem sb3InitialLoop_spec {T I : Type} (ids : List (List String))
    (observations : List (List (String × T)))
    (terminateds truncateds : List (List (String × Bool)))
    (hndAll : ∀ (e : Nat) (he : e < ids.length), (ids.get ⟨e, he⟩).Nodup) :
    ∀ (entries : List (Nat × List (String × T))),
    (∀ p ∈ entries, initialEntryWF ids observations terminateds truncateds p) →
    (entries.map Prod.fst).Nodup →
    ∀ (infos : List (Sb3Info T I)) (arrObs : List (Option T)),
    infos.length = num_ids ids → arrObs.length = num_ids ids →
    ∃ infos' arrObs',
      sb3InitialLoop ids observations terminateds truncateds entries
        infos arrObs = .ok (infos', arrObs') ∧
      infos'.length = num_ids ids ∧ arrObs'.length = num_ids ids ∧
      (∀ u, (∀ p ∈ entries, ∀ (hp : p.1 < ids.length),
          u < envOffset ids p.1 ∨
            envOffset ids p.1 + (ids.get ⟨p.1, hp⟩).length ≤ u) →
        infos'.get? u = infos.get? u ∧ arrObs'.get? u = arrObs.get? u) ∧
      (∀ (e : Nat) (initEnv : List (String × T)), (e, initEnv) ∈ entries →
        ∀ (obsEnv : List (String × T))
          (termEnv truncEnv : List (String × Bool)),
        observations.get? e = some obsEnv →
        terminateds.get? e = some termEnv →
        truncateds.get? e = some truncEnv →
        ∀ (he : e < ids.length) (i : Nat)
          (hi : i < (ids.get ⟨e, he⟩).length),
        ∃ info tob tv uv iob,
          dictGet? obsEnv ((ids.get ⟨e, he⟩).get ⟨i, hi⟩) = some tob ∧
          dictGet? termEnv ((ids.get ⟨e, he⟩).get ⟨i, hi⟩) = some tv ∧
          dictGet? truncEnv ((ids.get ⟨e, he⟩).get ⟨i, hi⟩) = some uv ∧
          dictGet? initEnv ((ids.get ⟨e, he⟩).get ⟨i, hi⟩) = some iob ∧
          infos'.get? (envOffset ids e + i) = some info ∧
          info.terminal_observation = some tob ∧
          info.timelimit_truncated = some (uv && !tv) ∧
          arrObs'.get? (envOffset ids e + i) = some (some iob))
  | [], _, _, infos, arrObs, hil, hal => by
      refine ⟨infos, arrObs, rfl, hil, hal, fun u _ => ⟨rfl, rfl⟩, ?_⟩
      intro e0 d0 hmem
      exact absurd hmem (by simp)
  | (e, d) :: rest, hwf, hkeys, infos, arrObs, hil, hal => by
      obtain ⟨he, obsEnv0, termEnv0, truncEnv0, hobsE0, htermE0, htruncE0,
        hcov0⟩ := hwf (e, d) (List.mem_cons_self _ _)
      have hndE := hndAll e he
      obtain ⟨infos1, arrObs1, henv, hil1, hal1, hframe1, hchar1⟩ :=
        sb3InitialEnv_spec ids e he hndE observations terminateds truncateds
          obsEnv0 termEnv0 truncEnv0 d hobsE0 htermE0 htruncE0 hcov0
          (ids.get ⟨e, he⟩) 0 (List.drop_zero _).symm infos arrObs hil hal
      have hk2 := hkeys
      rw [List.map_cons] at hk2
      obtain ⟨hnotin, htlkeys⟩ := List.nodup_cons.mp hk2
      obtain ⟨infos', arrObs', hloop, hil', hal', hframeR, hcharR⟩ :=
        sb3InitialLoop_spec ids observations terminateds truncateds hndAll
          rest (fun p hp => hwf p (List.mem_cons_of_mem _ hp)) htlkeys
          infos1 arrObs1 hil1 hal1
      refine ⟨infos', arrObs', ?_, hil', hal', ?_, ?_⟩
      · rw [sb3InitialLoop, envAgents, List.get?_eq_get he, orRaise_some,
          except_bind_ok, henv, except_bind_ok]
        exact hloop
      · intro u hu
        have hfr2 := hframeR u (fun p hp hplt =>
          hu p (List.mem_cons_of_mem _ hp) hplt)
        have hu1 : u < envOffset ids e + 0 ∨
            envOffset ids e + (ids.get ⟨e, he⟩).length ≤ u := by
          rcases hu (e, d) (List.mem_cons_self _ _) he with h | h
          · have h' : u < envOffset ids e := h
            exact Or.inl (by omega)
          · exact Or.inr h
        have hfr1 := hframe1 u hu1
        exact ⟨hfr2.1.trans hfr1.1, hfr2.2.trans hfr1.2⟩
      · intro e0 d0 hmem obsEnv termEnv truncEnv hobsE htermE htruncE
          he0 i hi
        rcases List.mem_cons.mp hmem with hhead | htail
        · have he0e : e0 = e := congrArg Prod.fst hhead
          subst he0e
          have hd : d0 = d := congrArg Prod.snd hhead
          subst hd
          have hoe : obsEnv = obsEnv0 := by
            have := hobsE.symm.trans hobsE0
            injection this
          subst hoe
          have hte : termEnv = termEnv0 := by
            have := htermE.symm.trans htermE0
            injection this
          subst hte
          have hue : truncEnv = truncEnv0 := by
            have := htruncE.symm.trans htruncE0
            injection this
          subst hue
          obtain ⟨info, tob, tv, uv, iob, htob', htv', huv', hiob',
            hInfoAt, hTF, hTl, hObsAt⟩ := hchar1 i hi (Nat.zero_le i)
          have hi' : i < (ids.get ⟨e0, he⟩).length := hi
          have hcond : ∀ p ∈ rest, ∀ (hp : p.1 < ids.length),
              envOffset ids e0 + i < envOffset ids p.1 ∨
                envOffset ids p.1 + (ids.get ⟨p.1, hp⟩).length ≤
                  envOffset ids e0 + i := by
            intro p hp hplt
            have hpne : p.1 ≠ e0 := fun hh =>
              hnotin (hh ▸ List.mem_map.mpr ⟨p, hp, rfl⟩)
            exact envBlock_disjoint ids e0 p.1 he hplt hpne _
              (by omega) (by omega)
          refine ⟨info, tob, tv, uv, iob, htob', htv', huv', hiob',
            ?_, hTF, hTl, ?_⟩
          · rw [(hframeR (envOffset ids e0 + i) hcond).1]
            exact hInfoAt
          · rw [(hframeR (envOffset ids e0 + i) hcond).2]
            exact hObsAt
        · exact hcharR e0 d0 htail obsEnv termEnv truncEnv hobsE htermE
            htruncE he0 i hi

/-- **C5**: whenever the SB3 `VecEnv.step_wait` receives an initial
(post-reset) observation map for an environment from the transport
(an entry of `initial_obs`), then — provided the response is well-formed
(each such entry covers the agents of an existing environment, entries name
distinct environments, agent ids are unique per environment) and the other
stages of the call succeed — the call returns, and for every agent slot
`uid = envOffset e + i` of that environment the returned
`info[uid]["terminal_observation"]` is the pre-reset terminal observation
`observations[e][agent]`, `info[uid]["TimeLimit.truncated"]` equals
`truncated AND NOT terminated` for that slot, and the returned observation
batch holds the post-reset initial observation `initial_obs[e][agent]` at
that slot instead of the terminal one. -/
theorem sb3_selfreset_substitution {T R I : Type} (ids : List (List String))
    (resetInfos : List I)
    (observations : List (List (String × T)))
    (rewards : List (List (String × R)))
    (terminateds truncateds : List (List (String × Bool)))
    (nested_infos : List (List (String × I)))
    (initial_obs : List (Nat × List (String × T)))
    (initial_infos : List (Nat × List (String × I)))
    (arrR : List (Option R)) (arrO : List (Option T))
    (infos0 : List (Sb3Info T I)) (dn : List Bool) (ri2 : List I)
    (hndAll : ∀ (e : Nat) (he : e < ids.length), (ids.get ⟨e, he⟩).Nodup)
    (hkeys : (initial_obs.map Prod.fst).Nodup)
    (hwf : ∀ p ∈ initial_obs,
      initialEntryWF ids observations terminateds truncateds p)
    (hrew : flattenOpt ids rewards = .ok arrR)
    (hobs : flattenOpt ids observations = .ok arrO)
    (hinf : sb3BuildInfos (T := T) ids nested_infos = .ok infos0)
    (hdones : sb3ComputeDones ids terminateds truncateds = .ok dn)
    (hri : sb3ResetInfosLoop ids initial_infos resetInfos = .ok ri2) :
    ∃ (obsF : List (Option T)) (infosF : List (Sb3Info T I)),
      sb3StepWait ids resetInfos observations rewards terminateds truncateds
        nested_infos initial_obs initial_infos =
        .ok ⟨obsF, arrR, dn, infosF, ri2⟩ ∧
      ∀ (e : Nat) (initEnv : List (String × T)), (e, initEnv) ∈ initial_obs →
      ∀ (obsEnv : List (String × T))
        (termEnv truncEnv : List (String × Bool)),
      observations.get? e = some obsEnv →
      terminateds.get? e = some termEnv →
      truncateds.get? e = some truncEnv →
      ∀ (he : e < ids.length) (i : Nat)
        (hi : i < (ids.get ⟨e, he⟩).length),
      ∃ info tob tv uv iob,
        dictGet? obsEnv ((ids.get ⟨e, he⟩).get ⟨i, hi⟩) = some tob ∧
        dictGet? termEnv ((ids.get ⟨e, he⟩).get ⟨i, hi⟩) = some tv ∧
        dictGet? truncEnv ((ids.get ⟨e, he⟩).get ⟨i, hi⟩) = some uv ∧
        dictGet? initEnv ((ids.get ⟨e, he⟩).get ⟨i, hi⟩) = some iob ∧
        infosF.get? (envOffset ids e + i) = some info ∧
        info.terminal_observation = some tob ∧
        info.timelimit_truncated = some (uv && !tv) ∧
        obsF.get? (envOffset ids e + i) = some (some iob) := by
  obtain ⟨infos', arrObs', hloop, _, _, _, hchar⟩ :=
    sb3InitialLoop_spec ids observations terminateds truncateds hndAll
      initial_obs hwf hkeys infos0 arrO
      (sb3BuildInfos_ok_length ids nested_infos infos0 hinf)
      (flattenOpt_ok_length ids observations arrO hobs)
  refine ⟨arrObs', infos', ?_, hchar⟩
  rw [sb3StepWait, hrew, except_bind_ok, hobs, except_bind_ok, hinf,
    except_bind_ok, hdones, except_bind_ok, hri, except_bind_ok, hloop,
    except_bind_ok]
  rfl

/-- Witness for C5: one two-agent environment self-resets; agent `"a"`
(terminated, not truncated) and agent `"b"` (terminated and truncated) both
get their terminal observation and `TimeLimit.truncated` flag stashed in
the infos, and the initial observations `20`/`21` substituted into the
batch. -/
theorem sb3_selfreset_substitution_witness :
    ∃ (obsF : List (Option Nat)) (infosF : List (Sb3Info Nat Nat)),
      sb3StepWait [["a", "b"]] [(0 : Nat), 0]
        [[("a", (10 : Nat)), ("b", 11)]] [[("a", (1 : Nat)), ("b", 2)]]
        [[("a", true), ("b", true)]] [[("a", false), ("b", true)]]
        [[("a", (7 : Nat)), ("b", 8)]]
        [(0, [("a", (20 : Nat)), ("b", 21)])]
        [(0, [("a", (77 : Nat)), ("b", 88)])] =
        .ok ⟨obsF, [some 1, some 2], [true, true], infosF, [77, 88]⟩ ∧
      ∀ (e : Nat) (initEnv : List (String × Nat)),
        (e, initEnv) ∈ [(0, [("a", (20 : Nat)), ("b", 21)])] →
      ∀ (obsEnv : List (String × Nat))
        (termEnv truncEnv : List (String × Bool)),
      [[("a", (10 : Nat)), ("b", 11)]].get? e = some obsEnv →
      [[("a", true), ("b", true)]].get? e = some termEnv →
      [[("a", false), ("b", true)]].get? e = some truncEnv →
      ∀ (he : e < ([["a", "b"]] : List (List String)).length) (i : Nat)
        (hi : i < (([["a", "b"]] : List (List String)).get ⟨e, he⟩).length),
      ∃ info tob tv uv iob,
        dictGet? obsEnv
          ((([["a", "b"]] : List (List String)).get ⟨e, he⟩).get ⟨i, hi⟩) =
          some tob ∧
        dictGet? termEnv
          ((([["a", "b"]] : List (List String)).get ⟨e, he⟩).get ⟨i, hi⟩) =
          some tv ∧
        dictGet? truncEnv
          ((([["a", "b"]] : List (List String)).get ⟨e, he⟩).get ⟨i, hi⟩) =
          some uv ∧
        dictGet? initEnv
          ((([["a", "b"]] : List (List String)).get ⟨e, he⟩).get ⟨i, hi⟩) =
          some iob ∧
        infosF.get? (envOffset [["a", "b"]] e + i) = some info ∧
        info.terminal_observation = some tob ∧
        info.timelimit_truncated = some (uv && !tv) ∧
        obsF.get? (envOffset [["a", "b"]] e + i) = some (some iob) :=
  sb3_selfreset_substitution [["a", "b"]] [0, 0]
    [[("a", 10), ("b", 11)]] [[("a", 1), ("b", 2)]]
    [[("a", true), ("b", true)]] [[("a", false), ("b", true)]]
    [[("a", 7), ("b", 8)]] [(0, [("a", 20), ("b", 21)])]
    [(0, [("a", 77), ("b", 88)])]
    [some 1, some 2] [some 10, some 11]
    [⟨some 7, none, none⟩, ⟨some 8, none, none⟩] [true, true] [77, 88]
    (fun e he => by
      have h1 : e < 1 := he
      have h0 : e = 0 := by omega
      subst h0
      exact (by decide : (["a", "b"] : List String).Nodup))
    (by decide)
    (fun p hp => by
      have hp' : p = (0, [("a", 20), ("b", 21)]) := by simpa using hp
      subst hp'
      exact ⟨by decide, [("a", 10), ("b", 11)], [("a", true), ("b", true)],
        [("a", false), ("b", true)], rfl, rfl, rfl, by decide⟩)
    (by decide) (by decide) (by decide) (by decide) (by decide)

/-! ### Construction-time validation (C7) and teardown (C8) -/

@[simp] theorem preTry_ok {A B : Type} (a : A)
    (k : A → Except PyErr B × List Effect) :
    preTry (.ok a) k = k a := rfl

@[simp] theorem preTry_error {A B : Type} (err : PyErr)
    (k : A → Except PyErr B × List Effect) :
    preTry (.error err) k = (.error err, []) := rfl

@[simp] theorem withTeardown_ok {A : Type} (v : A) :
    withTeardown (.ok v) = (.ok v, []) := rfl

@[simp] theorem withTeardown_error {A : Type} (err : PyErr) :
    withTeardown (A := A) (.error err) =
      (.error err, [.protocolClose, .simulatorStop]) := rfl

theorem validateAgentsLoop_error : ∀ (ids : List (List String)) (e0 : Nat),
    (∃ env ∈ ids, env = []) →
    ∃ j, ids.get? j = some [] ∧
      validateAgentsLoop ids e0 = .error (.noAgents (e0 + j))
  | [], _, h => absurd h (by simp)
  | env :: rest, e0, h => by
      by_cases he : env.length = 0
      · obtain rfl : env = [] := List.length_eq_zero.mp he
        exact ⟨0, by simp, by simp [validateAgentsLoop]⟩
      · have hex : ∃ env' ∈ rest, env' = [] := by
          rcases h with ⟨env', hmem, hnil⟩
          rcases List.mem_cons.mp hmem with rfl | hmem'
          · exact absurd (by simp [hnil]) he
          · exact ⟨env', hmem', hnil⟩
        obtain ⟨j, hj, hloop⟩ := validateAgentsLoop_error rest (e0 + 1) hex
        refine ⟨j + 1, by simpa using hj, ?_⟩
        rw [validateAgentsLoop, if_neg he, hloop]
        have : e0 + 1 + j = e0 + (j + 1) := by omega
        rw [this]

theorem idList_get0_ne_nil (ids : List (List String)) (p : Nat × String)
    (h : (id_list ids).get? 0 = some p) : ids.length ≠ 0 := by
  intro hlen
  obtain rfl : ids = [] := List.length_eq_zero.mp hlen
  simp [id_list, idListAux] at h

theorem flattenEnvWrites_nil_ids {α : Type} : ∀ (d : List (String × α))
    (e : Nat) (out : List α),
    flattenEnvWrites [] e d out = .ok out ∨
      flattenEnvWrites [] e d out = .error .indexError
  | [], _, out => Or.inl rfl
  | (a, v) :: _, e, out => by
      rw [flattenEnvWrites]
      rw [show flattenWrite ([] : List (List String)) out e a v =
        .error .indexError from rfl]
      exact Or.inr rfl

theorem flattenDictLoop_nil_ids {α : Type} :
    ∀ (entries : List (Nat × List (String × α))) (out : List α),
    flattenDictLoop [] entries out = .ok out ∨
      flattenDictLoop [] entries out = .error .indexError
  | [], out => Or.inl rfl
  | (e, d) :: rest, out => by
      rw [flattenDictLoop]
      rcases flattenEnvWrites_nil_ids d e out with h | h
      · rw [h, except_bind_ok]
        exact flattenDictLoop_nil_ids rest out
      · rw [h, except_bind_error]
        exact Or.inr rfl

theorem flatten_dict_of_dicts_nil_ids {α : Type}
    (entries : List (Nat × List (String × α))) (default : α) :
    flatten_dict_of_dicts [] entries default = .ok [] ∨
      flatten_dict_of_dicts [] entries default = .error .indexError := by
  have := flattenDictLoop_nil_ids entries
    (List.replicate (num_ids []) default)
  simpa [flatten_dict_of_dicts, num_ids] using this

/-- **C7 counterexample**: constructing the SB3 `VecEnv` with zero
environments does *not* raise `NoEnvironmentsException` — the
`id_manager[0]` lookup, which runs before the `try` block, raises
`IndexError` first (and without teardown). -/
theorem no_environments_unreachable_counterexample :
    (sb3DefineEnvironment (S := Nat) [] [] []).1 = .error .indexError ∧
    (sb3DefineEnvironment (S := Nat) [] [] []).1 ≠ .error .noEnvironments := by
  decide

/-- **C7 (amended)**: constructing a framework adapter from a definition
with zero environments raises `IndexError` (SB3 `VecEnv`, `RayVecEnv`) or
`IndexError`/the space-batching collaborator's error (`GymVectorEnv`) —
never `NoEnvironmentsException`, whose raise site is unreachable because
`id_manager[0]` is evaluated first; a definition in which some environment
entry has zero agents, when at least one `(env, agent)` pair exists and the
pre-`try` stages succeed, raises `NoAgentsException(env_id)` of an empty
environment in all three adapters (SB3 `VecEnv`, `RayVecEnv`,
`GymVectorEnv`), after the `IdManager` is built and before any
reset/step. -/
theorem construction_validation_amended :
    (∀ (S : Type) (inst : DecidableEq S)
        (obs_defns action_defns : List (Nat × List (String × S))),
      sb3DefineEnvironment [] obs_defns action_defns =
        (.error .indexError, [])) ∧
    (∀ (S : Type) (obs_defns action_defns : List (Nat × List (String × S))),
      rayVecDefineEnvironment [] obs_defns action_defns =
        (.error .indexError, [])) ∧
    (∀ (S : Type) (inst : DecidableEq S)
        (batchSpaces : List (Option S) → Option S)
        (obs_defns action_defns : List (Nat × List (String × S))),
      gymVectorDefineEnvironment batchSpaces [] obs_defns action_defns =
          (.error .indexError, []) ∨
        gymVectorDefineEnvironment batchSpaces [] obs_defns action_defns =
          (.error .externalError, [])) ∧
    (∀ (S : Type) (inst : DecidableEq S) (ids : List (List String))
        (obs_defns action_defns : List (Nat × List (String × S)))
        (p : Nat × String) (asp osp : S),
      (id_list ids).get? 0 = some p →
      dictGet2? action_defns p.1 p.2 = .ok asp →
      dictGet2? obs_defns p.1 p.2 = .ok osp →
      (∃ env ∈ ids, env = []) →
      ∃ j, ids.get? j = some [] ∧
        sb3DefineEnvironment ids obs_defns action_defns =
          (.error (.noAgents j), [.protocolClose, .simulatorStop])) ∧
    (∀ (S : Type) (ids : List (List String))
        (obs_defns action_defns : List (Nat × List (String × S)))
        (p : Nat × String),
      (id_list ids).get? 0 = some p →
      rayBuildSpaces obs_defns action_defns p.1 = .ok () →
      (∃ env ∈ ids, env = []) →
      ∃ j, ids.get? j = some [] ∧
        rayVecDefineEnvironment ids obs_defns action_defns =
          (.error (.noAgents j), [.protocolClose, .simulatorStop])) ∧
    (∀ (S : Type) (inst : DecidableEq S)
        (batchSpaces : List (Option S) → Option S) (ids : List (List String))
        (obs_defns action_defns : List (Nat × List (String × S)))
        (flatActs flatObs : List (Option S)) (bA bO : S)
        (p : Nat × String) (asp osp : S),
      flatten_dict_of_dicts ids
        (action_defns.map (fun q => (q.1, q.2.map (fun r => (r.1, some r.2)))))
        none = .ok flatActs →
      batchSpaces flatActs = some bA →
      flatten_dict_of_dicts ids
        (obs_defns.map (fun q => (q.1, q.2.map (fun r => (r.1, some r.2)))))
        none = .ok flatObs →
      batchSpaces flatObs = some bO →
      (id_list ids).get? 0 = some p →
      dictGet2? action_defns p.1 p.2 = .ok asp →
      dictGet2? obs_defns p.1 p.2 = .ok osp →
      (∃ env ∈ ids, env = []) →
      ∃ j, ids.get? j = some [] ∧
        gymVectorDefineEnvironment batchSpaces ids obs_defns action_defns =
          (.error (.noAgents j), [.protocolClose, .simulatorStop])) := by
  refine ⟨?_, ?_, ?_, ?_, ?_, ?_⟩
  · intro S inst obs_defns action_defns
    rfl
  · intro S obs_defns action_defns
    rfl
  · intro S inst batchSpaces obs_defns action_defns
    rw [gymVectorDefineEnvironment]
    rcases flatten_dict_of_dicts_nil_ids
        (action_defns.map (fun p => (p.1, p.2.map (fun q => (q.1, some q.2)))))
        (none : Option S) with hA | hA
    · rw [hA, preTry_ok]
      cases hb : batchSpaces [] with
      | none => rw [orRaise_none, preTry_error]; exact Or.inr rfl
      | some sp =>
          rw [orRaise_some, preTry_ok]
          rcases flatten_dict_of_dicts_nil_ids
              (obs_defns.map (fun p => (p.1, p.2.map (fun q => (q.1, some q.2)))))
              (none : Option S) with hO | hO
          · rw [hO, preTry_ok, hb, orRaise_some, preTry_ok]
            exact Or.inl rfl
          · rw [hO, preTry_error]; exact Or.inl rfl
    · rw [hA, preTry_error]; exact Or.inl rfl
  · intro S inst ids obs_defns action_defns p asp osp hp hact hobs hempty
    obtain ⟨j, hj, hloop⟩ := validateAgentsLoop_error ids 0 hempty
    refine ⟨j, hj, ?_⟩
    rw [sb3DefineEnvironment, hp, orRaise_some, preTry_ok, hact, preTry_ok,
      hobs, preTry_ok,
      if_neg (idList_get0_ne_nil ids p hp), hloop, except_bind_error,
      withTeardown_error]
    have : (0 : Nat) + j = j := by omega
    rw [this]
  · intro S ids obs_defns action_defns p hp hbuild hempty
    obtain ⟨j, hj, hloop⟩ := validateAgentsLoop_error ids 0 hempty
    refine ⟨j, hj, ?_⟩
    rw [rayVecDefineEnvironment, hp, orRaise_some, preTry_ok, hbuild,
      preTry_ok, rayValidateEnvironments]
    rw [if_neg (idList_get0_ne_nil ids p hp), hloop]
    have : (0 : Nat) + j = j := by omega
    rw [this]
  · intro S inst batchSpaces ids obs_defns action_defns flatActs flatObs
      bA bO p asp osp hfA hbA hfO hbO hp hact hobs hempty
    obtain ⟨j, hj, hloop⟩ := validateAgentsLoop_error ids 0 hempty
    refine ⟨j, hj, ?_⟩
    rw [gymVectorDefineEnvironment, hfA, preTry_ok, hbA, orRaise_some,
      preTry_ok, hfO, preTry_ok, hbO, orRaise_some, preTry_ok, hp,
      orRaise_some, preTry_ok, hact, preTry_ok, hobs, preTry_ok,
      if_neg (idList_get0_ne_nil ids p hp), hloop, except_bind_error,
      withTeardown_error]
    have : (0 : Nat) + j = j := by omega
    rw [this]

/-- Witness for the amended C7: an SB3 `VecEnv` and a `GymVectorEnv` built
over `ids = [["a"], []]` raise `NoAgentsException(1)` with teardown. -/
theorem construction_validation_amended_witness :
    (∃ j, [["a"], ([] : List String)].get? j = some [] ∧
      sb3DefineEnvironment [["a"], []] [(0, [("a", (0 : Nat))])]
          [(0, [("a", (0 : Nat))])] =
        (.error (.noAgents j), [.protocolClose, .simulatorStop])) ∧
    (∃ j, [["a"], ([] : List String)].get? j = some [] ∧
      gymVectorDefineEnvironment (fun _ => some (0 : Nat)) [["a"], []]
          [(0, [("a", (0 : Nat))])] [(0, [("a", (0 : Nat))])] =
        (.error (.noAgents j), [.protocolClose, .simulatorStop])) :=
  ⟨construction_validation_amended.2.2.2.1 Nat instDecidableEqNat
      [["a"], []] [(0, [("a", 0)])] [(0, [("a", 0)])] (0, "a") 0 0
      (by decide) (by decide) (by decide) ⟨[], by simp, rfl⟩,
    construction_validation_amended.2.2.2.2.2 Nat instDecidableEqNat
      (fun _ => some 0) [["a"], []] [(0, [("a", 0)])] [(0, [("a", 0)])]
      [some 0] [some 0] 0 0 (0, "a") 0 0
      (by decide) rfl (by decide) rfl (by decide) (by decide) (by decide)
      ⟨[], by simp, rfl⟩⟩

/-- **C8 counterexample**: `ScholaDataCollector.__init__` performs *no*
teardown when its wrong-arity assertion (`num_ids == 1`) fails — the
`AssertionError` propagates with neither `protocol.close()` nor
`simulator.stop()` having been called, leaving the connection and
subprocess dangling. -/
theorem datacollector_no_teardown_counterexample :
    scholaDataCollectorInit (S := Nat) [["a"], ["b"]]
        [(0, [("a", 0)]), (1, [("b", 1)])]
        [(0, [("a", 2)]), (1, [("b", 3)])] =
      (.error .assertionError, []) ∧
    ([] : List Effect) ≠ [.protocolClose, .simulatorStop] := by
  decide

/-- **C8 (amended)**: the construction-time fatal errors raised *inside*
the adapters' `try` blocks (no-agents, space-mismatch, the single-agent
arity assertion of `GymEnv`, every `_validate_environments` error of the
RLlib adapters) run `protocol.close()` followed by `simulator.stop()`
before propagating; but `ScholaDataCollector.__init__` has no such
`try`/`except`, so its wrong-arity assertion propagates without any
teardown. -/
theorem construction_teardown_amended :
    (∀ (S : Type) (inst : DecidableEq S) (ids : List (List String))
        (obs_defns action_defns : List (Nat × List (String × S)))
        (p : Nat × String) (asp osp : S),
      (id_list ids).get? 0 = some p →
      dictGet2? action_defns p.1 p.2 = .ok asp →
      dictGet2? obs_defns p.1 p.2 = .ok osp →
      ∀ err, (sb3DefineEnvironment ids obs_defns action_defns).1 =
          .error err →
        (sb3DefineEnvironment ids obs_defns action_defns).2 =
          [.protocolClose, .simulatorStop]) ∧
    (∀ (S : Type) (ids : List (List String))
        (obs_defns action_defns : List (Nat × List (String × S)))
        (p : Nat × String) (asp osp : S),
      (id_list ids).get? 0 = some p →
      dictGet2? action_defns p.1 p.2 = .ok asp →
      dictGet2? obs_defns p.1 p.2 = .ok osp →
      num_ids ids ≠ 1 →
      gymEnvDefineEnvironment ids obs_defns action_defns =
        (.error .assertionError, [.protocolClose, .simulatorStop])) ∧
    (∀ (S : Type) (ids : List (List String))
        (obs_defns action_defns : List (Nat × List (String × S)))
        (p : Nat × String),
      (id_list ids).get? 0 = some p →
      rayBuildSpaces obs_defns action_defns p.1 = .ok () →
      ∀ err, (rayVecDefineEnvironment ids obs_defns action_defns).1 =
          .error err →
        (rayVecDefineEnvironment ids obs_defns action_defns).2 =
          [.protocolClose, .simulatorStop]) ∧
    (∀ (S : Type) (ids : List (List String))
        (observation_spaces action_spaces : List (Nat × List (String × S)))
        (p : Nat × String),
      (id_list ids).get? 0 = some p →
      num_ids ids ≠ 1 →
      scholaDataCollectorInit ids observation_spaces action_spaces =
        (.error .assertionError, [])) := by
  refine ⟨?_, ?_, ?_, ?_⟩
  · intro S inst ids obs_defns action_defns p asp osp hp hact hobs err
    rw [sb3DefineEnvironment, hp, orRaise_some, preTry_ok, hact, preTry_ok,
      hobs, preTry_ok]
    cases hbody : (if ids.length = 0 then
        (.error .noEnvironments : Except PyErr (S × S))
      else
        (validateAgentsLoop ids 0) >>= fun _ =>
        (checkSpacesLoop obs_defns action_defns osp asp (id_list ids)) >>=
          fun _ =>
        .ok (osp, asp)) with
    | ok v => rw [withTeardown_ok]; intro h; exact absurd h (by simp)
    | error e => rw [withTeardown_error]; intro _; rfl
  · intro S ids obs_defns action_defns p asp osp hp hact hobs hnum
    rw [gymEnvDefineEnvironment, hp, orRaise_some, preTry_ok, hact,
      preTry_ok, hobs, preTry_ok, if_neg hnum, withTeardown_error]
  · intro S ids obs_defns action_defns p hp hbuild err
    rw [rayVecDefineEnvironment, hp, orRaise_some, preTry_ok, hbuild,
      preTry_ok, rayValidateEnvironments]
    cases hbody : (if ids.length = 0 then
        (.error .noEnvironments : Except PyErr Unit)
      else validateAgentsLoop ids 0) with
    | ok v => intro h; exact absurd h (by simp)
    | error e => intro _; rfl
  · intro S ids observation_spaces action_spaces p hp hnum
    rw [scholaDataCollectorInit, hp, orRaise_some, preTry_ok, if_neg hnum]

/-- Witness for the amended C8: `GymEnv` given two pairs tears down; the
data collector (see the counterexample) does not. -/
theorem construction_teardown_amended_witness :
    gymEnvDefineEnvironment [["a"], ["b"]]
        [(0, [("a", (0 : Nat))]), (1, [("b", 1)])]
        [(0, [("a", 2)]), (1, [("b", 3)])] =
      (.error .assertionError, [.protocolClose, .simulatorStop]) :=
  construction_teardown_amended.2.1 Nat [["a"], ["b"]]
    [(0, [("a", 0)]), (1, [("b", 1)])] [(0, [("a", 2)]), (1, [("b", 3)])]
    (0, "a") 2 0 (by decide) (by decide) (by decide) (by decide)

/-! ### `GymVectorEnv.reset` seeding and options (C9, C10) -/

/-- **C9**: the seed-expansion of `GymVectorEnv.reset` is a deterministic
pure function of the integer seed: a fresh `SeedSequence` is built from the
seed on each call, so two calls with the same seed `S` produce the exact
same list of `num_envs` derived sub-seeds (children `1 .. num_envs`,
wrapped through `np.int32`), which therefore reach the transport
identically; a seed passed as a list must have length exactly `num_envs`,
else the call fails the length assertion. -/
theorem gym_reset_seeding (numEnvs : Nat) (spawnState : Nat → Nat → Nat)
    (S : Nat) (l : List Int) (hl : l.length ≠ numEnvs) :
    gymVectorResetSeeds numEnvs spawnState (.int S) =
      .ok (some ((List.range numEnvs).map
        (fun j => int32OfUInt32 (spawnState S (j + 1))))) ∧
    ((List.range numEnvs).map
      (fun j => int32OfUInt32 (spawnState S (j + 1)))).length = numEnvs ∧
    gymVectorResetSeeds numEnvs spawnState (.list l) =
      .error .assertionError := by
  refine ⟨?_, by simp, ?_⟩
  · rw [gymVectorResetSeeds, if_pos (by simp)]
  · rw [gymVectorResetSeeds, if_neg hl]

/-- Witness for C9 at `num_envs = 3`, a concrete spawn function, seed `7`,
and the too-short list seed `[0]`. -/
theorem gym_reset_seeding_witness :
    gymVectorResetSeeds 3 (fun s c => s * 10 + c) (.int 7) =
      .ok (some ((List.range 3).map
        (fun j => int32OfUInt32 ((fun s c => s * 10 + c) 7 (j + 1))))) ∧
    ((List.range 3).map
      (fun j => int32OfUInt32 ((fun s c => s * 10 + c) 7 (j + 1)))).length = 3 ∧
    gymVectorResetSeeds 3 (fun s c => s * 10 + c) (.list [0]) =
      .error .assertionError :=
  gym_reset_seeding 3 (fun s c => s * 10 + c) 7 [0] (by decide)

/-- **C10**: a non-empty options mapping is never forwarded by
`GymVectorEnv.reset` — when it contains `"reset_mask"` the call raises
`NotImplementedError`, and otherwise the options loop reads the local
variables `env_id`/`agent_id`, which are only assigned later in the
function, raising `UnboundLocalError` (a subclass of `NameError`) before
any reset message is sent (provided seed processing itself succeeds). -/
theorem gym_reset_options_never_forwarded {V : Type} (numEnvs : Nat)
    (spawnState : Nat → Nat → Nat) (seed : GymSeed)
    (opts : List (String × V)) (hne : opts ≠ [])
    (seeds : Option (List Int))
    (hseed : gymVectorResetSeeds numEnvs spawnState seed = .ok seeds) :
    ("reset_mask" ∈ dictKeys opts →
      gymVectorResetMsg numEnvs spawnState seed (some opts) =
        .error .notImplementedError) ∧
    ("reset_mask" ∉ dictKeys opts →
      gymVectorResetMsg numEnvs spawnState seed (some opts) =
        .error .unboundLocalError) := by
  constructor
  · intro hmem
    rw [gymVectorResetMsg, hseed, except_bind_ok,
      show gymVectorResetOptions numEnvs (some opts) =
        .error .notImplementedError from by
          rw [gymVectorResetOptions.eq_def]
          simp only [if_pos hmem],
      except_bind_error]
  · intro hmem
    cases opts with
    | nil => exact absurd rfl hne
    | cons o rest =>
        rw [gymVectorResetMsg, hseed, except_bind_ok,
          show gymVectorResetOptions numEnvs (some (o :: rest)) =
            .error .unboundLocalError from by
              rw [gymVectorResetOptions.eq_def]
              simp only [if_neg hmem],
          except_bind_error]

/-- Witness for C10: options `{"reset_mask": "1"}` with no seed raise
`NotImplementedError` before any message is produced. -/
theorem gym_reset_options_never_forwarded_witness :
    gymVectorResetMsg 1 (fun _ _ => 0) .noSeed
        (some [("reset_mask", "1")]) =
      .error .notImplementedError :=
  (gym_reset_options_never_forwarded 1 (fun _ _ => 0) .noSeed
    [("reset_mask", "1")] (by decide) none rfl).1 (by decide)

/-- Witness for the amended C4 at a concrete wrapper state and step data. -/
theorem liveness_update_amended_witness :
    ((wrapperStep ⟨{"x", "y"}, ∅, ∅, false⟩ [("x", ()), ("y", ())]
        [("x", true), ("y", false)] [("x", false), ("y", false)]).terminated =
      (∅ : Finset String) ∪ trueKeys [("x", true), ("y", false)] ∧
    (wrapperStep ⟨{"x", "y"}, ∅, ∅, false⟩ [("x", ()), ("y", ())]
        [("x", true), ("y", false)] [("x", false), ("y", false)]).truncated =
      (∅ : Finset String) ∪ trueKeys [("x", false), ("y", false)] ∧
    (wrapperStep ⟨{"x", "y"}, ∅, ∅, false⟩ [("x", ()), ("y", ())]
        [("x", true), ("y", false)] [("x", false), ("y", false)]).current =
      (({"x", "y"} : Finset String) ∪
          keysFinset (α := Unit) [("x", ()), ("y", ())]) \
        ((wrapperStep ⟨{"x", "y"}, ∅, ∅, false⟩ [("x", ()), ("y", ())]
            [("x", true), ("y", false)] [("x", false), ("y", false)]).terminated ∪
         (wrapperStep ⟨{"x", "y"}, ∅, ∅, false⟩ [("x", ()), ("y", ())]
            [("x", true), ("y", false)] [("x", false), ("y", false)]).truncated)) :=
  liveness_update_amended.1 Unit ⟨{"x", "y"}, ∅, ∅, false⟩
    [("x", ()), ("y", ())] [("x", true), ("y", false)]
    [("x", false), ("y", false)] rfl

end Schola
